import Mathlib

/-!
Shallow embedding of the self-production pipeline of the `atlas` repository
(`src/self-production/gap-analyzer.ts`, `src/self-production/integrator.ts`,
which also contains the review queue, the AXIS validator, the code generator
and the self-production engine).

Conventions of the embedding:
* JavaScript `number` is modelled as `ℚ` (all arithmetic in the embedded code
  is exact decimal arithmetic); `Math.max`/`Math.min`/`Math.abs` are the
  hand-rolled `mathMax`/`mathMin`/`mathAbs` below.
* `Date` values (`Date.now()`, `new Date()`) are modelled as natural-number
  timestamps in milliseconds; functions that read the clock in the source take
  an explicit `now : ℕ` argument.
* Mutable class state (`ReviewQueue.items`, `Integrator.history`, the file
  system touched by `fs`) is passed explicitly and returned updated; a thrown
  exception is an `Except.error` paired with the unchanged state.
* String scanning that the source performs with regular expressions is
  modelled by explicit character-list scanners that implement the first-match
  semantics of the specific patterns used by the source.
* Free-text fields whose content no theorem depends on (gap `description`,
  evidence `context`) are elided from the records; every field that any
  operation inspects is kept.
-/

/-! ## JavaScript primitives -/

/-- `Math.max` on JavaScript numbers. -/
def mathMax (a b : ℚ) : ℚ := if a < b then b else a

/-- `Math.min` on JavaScript numbers. -/
def mathMin (a b : ℚ) : ℚ := if a < b then a else b

/-- `Math.abs` on JavaScript numbers. -/
def mathAbs (a : ℚ) : ℚ := if a < 0 then -a else a

/-- Boolean test that `pat` is a prefix of `hay` (helper for substring search). -/
def isPre : List Char → List Char → Bool
  | [], _ => true
  | _ :: _, [] => false
  | a :: as, b :: bs => a == b && isPre as bs

/-- Find the first occurrence of `pat` in the haystack and return the suffix
that starts right after that occurrence (`none` if `pat` does not occur).
This models `String.prototype.indexOf`-based scanning. -/
def findSubEnd (pat : List Char) : List Char → Option (List Char)
  | [] => if isPre pat [] then some [] else none
  | c :: t => if isPre pat (c :: t) then some ((c :: t).drop pat.length) else findSubEnd pat t

/-- `s.includes(pat)` on JavaScript strings. -/
def jsIncludes (s pat : String) : Bool := (findSubEnd pat.toList s.toList).isSome

/-- `s.toLowerCase()` (ASCII, which is all the source ever feeds it). -/
def jsToLower (s : String) : String := (s.toList.map Char.toLower).asString

/-- `s.toUpperCase()` (ASCII). -/
def jsToUpper (s : String) : String := (s.toList.map Char.toUpper).asString

/-- JavaScript truthiness of an optional string (`undefined` and `''` are falsy). -/
def optTruthy : Option String → Bool
  | none => false
  | some s => !s.isEmpty

/-- `x || d` for an optional string `x`: JavaScript's `||` falls through to the
default when the string is absent or empty. -/
def jsOrDefault (x : Option String) (d : String) : String :=
  match x with
  | none => d
  | some s => if s.isEmpty then d else s

/-- First-occurrence dedup, the semantics of `[...new Set(xs)]`. -/
def jsSetDedup {α : Type} [DecidableEq α] (l : List α) : List α :=
  l.foldl (fun acc x => if x ∈ acc then acc else acc ++ [x]) []

/-! ## Core data model (`src/core/domains.ts`, `src/core/strata.ts`, `src/core/types.ts`) -/

/-- The eight domains (`src/core/domains.ts`). -/
inductive Domain
  | INERT | LIVING | SENTIENT | SYMBOLIC | COLLECTIVE | IDEAL | EPHEMERAL | ARTIFICIAL
deriving DecidableEq

/-- The four strata (`src/core/strata.ts`). -/
inductive Stratum
  | MATTER | LIFE | SENTIENCE | LOGOS
deriving DecidableEq

/-- Strata membership flags of an entity (`StrataSet`). -/
structure StrataSet where
  MATTER : Bool
  LIFE : Bool
  SENTIENCE : Bool
  LOGOS : Bool
deriving DecidableEq

/-- A typed edge of an entity (`EntityRelation`); the gap analyzer reads only
the relation type string and the target id. -/
structure EntityRelation where
  targetId : String
  type : String
  strength : ℚ
deriving DecidableEq

/-- `Config(E)` (`EntityConfiguration` in `src/core/types.ts`); the capability
set is never read by the embedded self-production code and is elided. -/
structure EntityConfig where
  closure : ℚ
  scope : ℚ
  strata : StrataSet
  relations : List EntityRelation
  uncertainty : ℚ
deriving DecidableEq

/-- An entity snapshot (`Entity` in `src/core/types.ts`); mode/meta fields are
never read by the embedded self-production code and are elided. -/
structure Entity where
  id : String
  name : String
  domain : Domain
  config : EntityConfig
deriving DecidableEq

/-! ## Gap analyzer (`src/self-production/gap-analyzer.ts`) -/

/-- Gap classification (`GapType`). -/
inductive GapType
  | domain_misfit | capability_missing | relation_pattern | stratum_boundary
  | source_coverage | axiom_tension | clustering_anomaly
deriving DecidableEq

/-- Gap severity. -/
inductive Severity
  | low | medium | high | critical
deriving DecidableEq

/-- Suggested-action kinds (`SuggestedAction.type`). -/
inductive ActionType
  | new_domain | new_capability | new_relation | new_connector | axiom_review | manual_review
deriving DecidableEq

/-- Evidence supporting a gap (`GapEvidence`); the free-text `context` field
is elided. -/
structure GapEvidence where
  entityId : Option String
  entityName : Option String
  metric : String
  value : ℚ
  threshold : ℚ
deriving DecidableEq

/-- Suggested action of a gap; the untyped `parameters` bag is elided. -/
structure SuggestedAction where
  type : ActionType
  confidence : ℚ
deriving DecidableEq

/-- A detected gap (`Gap`); the free-text `description` is elided. -/
structure Gap where
  id : String
  type : GapType
  severity : Severity
  evidence : List GapEvidence
  suggestedAction : SuggestedAction
  detectedAt : ℕ
deriving DecidableEq

/-- Analyzer configuration (`GapAnalyzerConfig`). -/
structure GapAnalyzerConfig where
  confidenceThreshold : ℚ
  domainMinClusterSize : ℕ
  domainMisfitThreshold : ℚ
  relationMinOccurrences : ℕ
deriving DecidableEq

/-- `DEFAULT_CONFIG` of the gap analyzer. -/
def gapAnalyzerDefaultConfig : GapAnalyzerConfig :=
  { confidenceThreshold := 0.7
    domainMinClusterSize := 5
    domainMisfitThreshold := 0.4
    relationMinOccurrences := 3 }

/-- Typical (closure, scope) pair per domain, the `domainCharacteristics`
table inside `GapAnalyzer.calculateDomainFitScore`. -/
def domainCharacteristics : Domain → ℚ × ℚ
  | .INERT => (0.3, 0.2)
  | .LIVING => (0.7, 0.4)
  | .SENTIENT => (0.8, 0.5)
  | .SYMBOLIC => (0.5, 0.7)
  | .COLLECTIVE => (0.6, 0.8)
  | .IDEAL => (0.2, 0.9)
  | .EPHEMERAL => (0.4, 0.3)
  | .ARTIFICIAL => (0.5, 0.6)

/-- `GapAnalyzer.calculateDomainFitScore`.  The table lookup is total (every
`Domain` value has an entry), so the `if (!typical) return 0.5` branch of the
source is unreachable and not modelled. -/
def calculateDomainFitScore (entity : Entity) : ℚ :=
  let typical := domainCharacteristics entity.domain
  let closureDiff := mathAbs (entity.config.closure - typical.1)
  let scopeDiff := mathAbs (entity.config.scope - typical.2)
  1 - (closureDiff + scopeDiff) / 2

/-- The misfit collection loop of `GapAnalyzer.analyzeDomainMisfits`
(lines 157–163): entities whose fit score is below the configured threshold. -/
def domainMisfitCandidates (config : GapAnalyzerConfig) (entities : List Entity) : List Entity :=
  entities.filter (fun e => calculateDomainFitScore e < config.domainMisfitThreshold)

/-- `GapAnalyzer.getActiveStrata`. -/
def getActiveStrata (entity : Entity) : List Stratum :=
  (if entity.config.strata.MATTER then [Stratum.MATTER] else [])
    ++ (if entity.config.strata.LIFE then [Stratum.LIFE] else [])
    ++ (if entity.config.strata.SENTIENCE then [Stratum.SENTIENCE] else [])
    ++ (if entity.config.strata.LOGOS then [Stratum.LOGOS] else [])

/-- The canonical stratum order used throughout the source. -/
def strataOrder : List Stratum := [.MATTER, .LIFE, .SENTIENCE, .LOGOS]

/-- One step of the loop inside `GapAnalyzer.respectsStratalNesting`; the
state is `(result so far, foundGap, sawHigher)`. -/
def nestingStep (strataSet : List Stratum) : Bool × Bool × Bool → Stratum → Bool × Bool × Bool
  | (result, foundGap, sawHigher), s =>
    if strataSet.contains s then
      if foundGap then (false, foundGap, sawHigher) else (result, foundGap, true)
    else if sawHigher then (result, true, sawHigher)
    else (result, foundGap, sawHigher)

/-- `GapAnalyzer.respectsStratalNesting`: no stratum may be present above a
missing one. -/
def respectsStratalNesting (strata : List Stratum) : Bool :=
  (strataOrder.foldl (nestingStep strata) (true, false, false)).1

/-- The gaps `GapAnalyzer.analyzeAxiomTensions` emits for a single entity, in
emission order, with the gap id left blank (ids are assigned afterwards, in
creation order, mirroring `generateGapId`).  IDEAL-domain entities are skipped
entirely (`continue`) before either check runs. -/
def axiomTensionGapsFor (now : ℕ) (entity : Entity) : List Gap :=
  if entity.domain == .IDEAL then []
  else
    (if entity.config.closure > 0.8 ∧ entity.config.scope > 0.8 then
      [{ id := ""
         type := .axiom_tension
         severity := .low
         evidence := [{ entityId := some entity.id
                        entityName := some entity.name
                        metric := "closure_scope_product"
                        value := entity.config.closure * entity.config.scope
                        threshold := 0.64 }]
         suggestedAction := { type := .manual_review, confidence := 0.6 }
         detectedAt := now }]
    else [])
      ++ (if ¬ respectsStratalNesting (getActiveStrata entity) then
        [{ id := ""
           type := .axiom_tension
           severity := .critical
           evidence := [{ entityId := some entity.id
                          entityName := some entity.name
                          metric := "stratal_nesting"
                          value := 0
                          threshold := 1 }]
           suggestedAction := { type := .axiom_review, confidence := 0.95 }
           detectedAt := now }]
      else [])

/-- `gap_${Date.now()}_${++this.gapCounter}`. -/
def gapId (now counter : ℕ) : String :=
  "gap_" ++ toString now ++ "_" ++ toString counter

/-- `GapAnalyzer.analyzeAxiomTensions` over an entity list; `counter` is the
value of `gapCounter` when the scan starts. -/
def analyzeAxiomTensions (now counter : ℕ) (entities : List Entity) : List Gap :=
  ((entities.flatMap (axiomTensionGapsFor now)).enum).map
    (fun p => { p.2 with id := gapId now (counter + p.1 + 1) })

/-! ## Code generator (`src/self-production/code-generator.ts`, concatenated
into `integrator.ts` in this snapshot) -/

/-- Kinds of generated code (`GenerationType`). -/
inductive GenerationType
  | domain | capability | relation | connector | extractor | protocol
deriving DecidableEq

/-- Where to insert generated code (`InsertionPoint`). -/
structure InsertionPoint where
  file : String
  after : Option String := none
  before : Option String := none
  replace : Option String := none
  append : Bool := false
deriving DecidableEq

/-- Status of one axiom inside a self-declared justification. -/
inductive JustificationStatus
  | respected | not_applicable | needs_review
deriving DecidableEq

/-- One entry of an `AxiomJustification`. -/
structure AxiomJustificationItem where
  id : String
  status : JustificationStatus
  explanation : String
deriving DecidableEq

/-- Self-declared justification that generated code respects the axioms. -/
structure AxiomJustification where
  axioms : List AxiomJustificationItem
  overallCompliance : ℚ
deriving DecidableEq

/-- A generated code artifact (`GeneratedCode`). -/
structure GeneratedCode where
  id : String
  type : GenerationType
  name : String
  description : String
  code : String
  targetFile : String
  insertionPoint : InsertionPoint
  dependencies : List String
  axiomJustification : AxiomJustification
  generatedAt : ℕ
  sourceGap : Gap
deriving DecidableEq

/-- Keyword lists of `CodeGenerator.inferTypicalClosure`. -/
def closureKeywords : List String := ["autonomous", "independent", "self-", "closed"]

/-- Keywords that push the inferred closure down. -/
def openKeywords : List String := ["dependent", "open", "connected", "reliant"]

/-- Keyword lists of `CodeGenerator.inferTypicalScope`. -/
def broadKeywords : List String := ["universal", "global", "extensive", "wide"]

/-- Keywords that push the inferred scope down. -/
def narrowKeywords : List String := ["local", "specific", "limited", "narrow"]

/-- `keywords.some(k => lower.includes(k))` for one characteristic string. -/
def kwHit (keywords : List String) (characteristic : String) : Bool :=
  keywords.any (fun k => jsIncludes (jsToLower characteristic) k)

/-- `CodeGenerator.inferTypicalClosure`. -/
def inferTypicalClosure (characteristics : List String) : ℚ :=
  let score := characteristics.foldl
    (fun score c =>
      let score := if kwHit closureKeywords c then score + 0.1 else score
      if kwHit openKeywords c then score - 0.1 else score)
    0.5
  mathMax 0.1 (mathMin 0.9 score)

/-- `CodeGenerator.inferTypicalScope`. -/
def inferTypicalScope (characteristics : List String) : ℚ :=
  let score := characteristics.foldl
    (fun score c =>
      let score := if kwHit broadKeywords c then score + 0.1 else score
      if kwHit narrowKeywords c then score - 0.1 else score)
    0.5
  mathMax 0.1 (mathMin 0.9 score)

/-- `CodeGenerator.inferCompatibleStrata`: MATTER is always included, keyword
groups push contiguous runs, and `[...new Set(...)]` dedups keeping first
occurrences. -/
def inferCompatibleStrata (characteristics : List String) : List Stratum :=
  let charString := jsToLower (String.intercalate " " characteristics)
  let strata := [Stratum.MATTER]
    ++ (if jsIncludes charString "living" || jsIncludes charString "biological"
          || jsIncludes charString "metabol" then [Stratum.LIFE] else [])
    ++ (if jsIncludes charString "sentient" || jsIncludes charString "conscious"
          || jsIncludes charString "feel" then [Stratum.LIFE, Stratum.SENTIENCE] else [])
    ++ (if jsIncludes charString "symbolic" || jsIncludes charString "language"
          || jsIncludes charString "norm" then
        [Stratum.LIFE, Stratum.SENTIENCE, Stratum.LOGOS] else [])
  jsSetDedup strata

/-! ## AXIS validator (`src/self-production/axis-validator.ts`, concatenated
into `integrator.ts` in this snapshot) -/

/-- An axiom of the frozen rule table. -/
structure Axiom where
  id : String
  name : String
  checkable : Bool
  criticalFor : List GenerationType
deriving DecidableEq

/-- The frozen rule table `AXIOMS` (statement texts elided; no code inspects
them). -/
def AXIOMS : List Axiom :=
  [ { id := "A1", name := "Entity Axiom", checkable := false, criticalFor := [.domain] }
  , { id := "A2", name := "Configuration Axiom", checkable := true,
      criticalFor := [.domain, .capability] }
  , { id := "A3", name := "Closure-Scope Trade-off", checkable := true, criticalFor := [.domain] }
  , { id := "A4", name := "Stratal Nesting", checkable := true,
      criticalFor := [.capability, .domain] }
  , { id := "A5", name := "Capability Emergence", checkable := true, criticalFor := [.capability] }
  , { id := "A6", name := "Geometric Completeness", checkable := false, criticalFor := [] }
  , { id := "A7", name := "Observer Entanglement", checkable := false, criticalFor := [] }
  , { id := "A8", name := "Boundary Constructivism", checkable := false, criticalFor := [.domain] }
  , { id := "A9", name := "Temporal Identity", checkable := false, criticalFor := [] }
  , { id := "A10", name := "Minimal Characterization", checkable := true,
      criticalFor := [.domain, .capability, .relation] } ]

/-- Severity of a blocking violation. -/
inductive ViolationSeverity
  | error | fatal
deriving DecidableEq

/-- A blocking axiom violation. -/
structure AxiomViolation where
  axiomId : String
  axiomName : String
  description : String
  severity : ViolationSeverity
  suggestedFix : Option String := none
deriving DecidableEq

/-- A non-blocking axiom warning. -/
structure AxiomWarning where
  axiomId : String
  axiomName : String
  description : String
  requiresReview : Bool
deriving DecidableEq

/-- Result of validating one artifact. -/
structure ValidationResult where
  valid : Bool
  score : ℚ
  violations : List AxiomViolation
  warnings : List AxiomWarning
  passed : List String
  requiresHumanReview : Bool
  reviewReasons : List String
deriving DecidableEq

/-- Result of one `checkAxiom` call (the anonymous record the checkers
return). -/
structure AxiomCheckResult where
  violated : Bool
  warning : Bool
  reason : String
  fatal : Bool
  requiresReview : Bool
  suggestedFix : Option String := none

/-- The single-quote character (written by code point to keep the source
plain-ASCII). -/
def squote : Char := Char.ofNat 39

/-- The double-quote character. -/
def dquote : Char := Char.ofNat 34

/-- A `\w` word character: letters, digits, underscore. -/
def isWordChar (c : Char) : Bool := c.isAlphanum || c == '_'

/-- Digits of a captured number, as a natural. -/
def digitsToNat (ds : List Char) : ℕ :=
  ds.foldl (fun n c => 10 * n + (c.toNat - 48)) 0

/-- `parseFloat` on a string captured by `[\d.]+`: the longest valid
`digits* ('.' digits*)?` prefix with at least one digit; `none` models `NaN`
(every `NaN` in the source flows only into `>` comparisons, which are then
false, exactly as the `none` branches below make them). -/
def parseFloatQ (cs : List Char) : Option ℚ :=
  let intPart := cs.takeWhile Char.isDigit
  let rest := cs.drop intPart.length
  let fracPart :=
    match rest with
    | '.' :: r => r.takeWhile Char.isDigit
    | _ => []
  if intPart.isEmpty && fracPart.isEmpty then none
  else some ((digitsToNat intPart : ℚ) + (digitsToNat fracPart : ℚ) / (10 : ℚ) ^ fracPart.length)

/-- First match of `label\s*([\d.]+)` followed by `parseFloat` on the capture,
at the first occurrence of `label`. -/
def extractNumAfter (code label : String) : Option ℚ :=
  match findSubEnd label.toList code.toList with
  | none => none
  | some rest =>
    let rest := rest.dropWhile Char.isWhitespace
    let numPart := rest.takeWhile (fun c => c.isDigit || c == '.')
    if numPart.isEmpty then none else parseFloatQ numPart

/-- First match of `label\s*['"](\w+)['"]`, at the first occurrence of
`label`, returning the captured word. -/
def extractQuotedWordAfter (code label : String) : Option String :=
  match findSubEnd label.toList code.toList with
  | none => none
  | some rest =>
    match rest.dropWhile Char.isWhitespace with
    | [] => none
    | q :: rest2 =>
      if q == squote || q == dquote then
        let w := rest2.takeWhile isWordChar
        if w.isEmpty then none
        else
          match rest2.drop w.length with
          | q2 :: _ => if q2 == squote || q2 == dquote then some w.asString else none
          | [] => none
      else none

/-- First match of `label\s*\[(.*?)\]` (with the `s` flag), at the first
occurrence of `label`, returning the captured bracket body. -/
def extractBracketAfter (code label : String) : Option String :=
  match findSubEnd label.toList code.toList with
  | none => none
  | some rest =>
    match rest.dropWhile Char.isWhitespace with
    | '[' :: rest2 =>
      if rest2.contains ']' then some (rest2.takeWhile (· ≠ ']')).asString else none
    | _ => none

/-- All matches of `/'(\w+)'/g`: left-to-right, non-overlapping, resuming
after each closing quote (or one character past a failed opening quote). -/
def scanQuotedWords (cs : List Char) : List String :=
  match cs with
  | [] => []
  | c :: rest =>
    if c == squote then
      let w := rest.takeWhile isWordChar
      if w.isEmpty then scanQuotedWords rest
      else
        match h : rest.drop w.length with
        | q2 :: rest2 =>
          if q2 == squote then
            have : rest2.length < rest.length + 1 := by
              have h1 : (rest.drop w.length).length ≤ rest.length := by
                simp
              rw [h] at h1
              simp at h1
              omega
            w.asString :: scanQuotedWords rest2
          else scanQuotedWords rest
        | [] => []
    else scanQuotedWords rest
termination_by cs.length
decreasing_by all_goals simp_wf <;> omega

/-- `indexOf` on a string array: first index, `-1` when absent. -/
def jsIndexOf (l : List String) (s : String) : ℤ :=
  match l.findIdx? (· == s) with
  | some i => i
  | none => -1

/-- `AxisValidator.getRequiredCapabilitiesForStratum`. -/
def getRequiredCapabilitiesForStratum (stratumIndex : ℕ) : List String :=
  [[], ["PERSIST"], ["PERSIST", "SELF_PRODUCE"],
   ["PERSIST", "SELF_PRODUCE", "FEEL", "EVALUATE"]].getD stratumIndex []

/-- Adjacent character pairs of a string (`AxisValidator.getBigrams`; a pair
of characters stands for the two-character slice). -/
def bigramsCL : List Char → List (Char × Char)
  | a :: b :: rest => (a, b) :: bigramsCL (b :: rest)
  | _ => []

/-- `AxisValidator.stringSimilarity` (Dice coefficient on bigrams).  The
`0/0` case is `NaN` in the source and `0` here; both make every `> threshold`
comparison false. -/
def stringSimilarity (a b : String) : ℚ :=
  let aBigrams := bigramsCL (jsToLower a).toList
  let bBigrams := bigramsCL (jsToLower b).toList
  let intersection := aBigrams.filter (fun x => bBigrams.contains x)
  (2 * intersection.length : ℚ) / ((aBigrams.length : ℚ) + (bBigrams.length : ℚ))

/-- `AxisValidator.checkA2Configuration`. -/
def checkA2Configuration (generated : GeneratedCode) : AxiomCheckResult :=
  if generated.type == .domain
      && !(jsIncludes generated.code "typicalClosure" && jsIncludes generated.code "typicalScope")
  then
    { violated := true, warning := false
      reason := "Domain must specify typicalClosure and typicalScope (A2: Config requirement)"
      fatal := false, requiresReview := false
      suggestedFix := some "Add typicalClosure: number and typicalScope: number to domain definition" }
  else
    { violated := false, warning := false, reason := "Config requirements satisfied"
      fatal := false, requiresReview := false }

/-- `AxisValidator.checkA3ClosureScope`. -/
def checkA3ClosureScope (generated : GeneratedCode) : AxiomCheckResult :=
  let tension : Bool :=
    if generated.type == .domain then
      match extractNumAfter generated.code "typicalClosure:",
            extractNumAfter generated.code "typicalScope:" with
      | some closure, some scope => decide (closure > 0.7) && decide (scope > 0.7)
      | _, _ => false
    else false
  if tension then
    { violated := false, warning := true
      reason := "Domain has both high closure and high scope. This creates A3 tension. Verify this is intentional."
      fatal := false, requiresReview := true }
  else
    { violated := false, warning := false, reason := "Closure-Scope relationship is reasonable"
      fatal := false, requiresReview := false }

/-- The all-checks-passed result `checkA4StratalNesting` falls through to. -/
def a4Pass : AxiomCheckResult :=
  { violated := false, warning := false, reason := "Stratal nesting respected"
    fatal := false, requiresReview := false }

/-- The early returns of the `generated.type === 'capability'` block of
`AxisValidator.checkA4StratalNesting` (`none` = the block falls through). -/
def checkA4Capability (generated : GeneratedCode) : Option AxiomCheckResult :=
  if generated.type == .capability then
    match extractQuotedWordAfter generated.code "emergentFrom:" with
    | none => none
    | some stratum =>
      let validStrata := ["MATTER", "LIFE", "SENTIENCE", "LOGOS"]
      if !validStrata.contains stratum then
        some { violated := true, warning := false
               reason := "Invalid stratum. Must be one of: MATTER, LIFE, SENTIENCE, LOGOS"
               fatal := true, requiresReview := false
               suggestedFix := some "Use a valid stratum: MATTER, LIFE, SENTIENCE, LOGOS" }
      else
        match extractBracketAfter generated.code "requires:" with
        | none => none
        | some inner =>
          let stratumIndex := validStrata.findIdx (· == stratum)
          let requiredCapabilities := getRequiredCapabilitiesForStratum stratumIndex
          match requiredCapabilities.find? (fun required => !jsIncludes inner required) with
          | some _ =>
            some { violated := false, warning := true
                   reason := "Capability should require the lower stratum capability"
                   fatal := false, requiresReview := true }
          | none => none
  else none

/-- The early returns of the `generated.type === 'domain'` block of
`AxisValidator.checkA4StratalNesting`. -/
def checkA4Domain (generated : GeneratedCode) : Option AxiomCheckResult :=
  if generated.type == .domain then
    match extractBracketAfter generated.code "compatibleStrata:" with
    | none => none
    | some inner =>
      let strata := scanQuotedWords inner.toList
      let validOrder := ["MATTER", "LIFE", "SENTIENCE", "LOGOS"]
      let highestIdx : ℤ :=
        strata.foldl (fun hi s => let idx := jsIndexOf validOrder s; if idx > hi then idx else hi)
          (-1)
      match (List.range (highestIdx + 1).toNat).find?
          (fun i => !strata.contains (validOrder.getD i "")) with
      | some _ =>
        some { violated := true, warning := false
               reason := "Domain compatible with a higher stratum must also include the lower one (A4: Stratal Nesting)"
               fatal := true, requiresReview := false
               suggestedFix := some "Add the missing stratum to compatibleStrata" }
      | none => none
  else none

/-- `AxisValidator.checkA4StratalNesting`. -/
def checkA4StratalNesting (generated : GeneratedCode) : AxiomCheckResult :=
  match checkA4Capability generated with
  | some r => r
  | none =>
    match checkA4Domain generated with
    | some r => r
    | none => a4Pass

/-- `AxisValidator.checkA5CapabilityEmergence`. -/
def checkA5CapabilityEmergence (generated : GeneratedCode) : AxiomCheckResult :=
  let pass : AxiomCheckResult :=
    { violated := false, warning := false, reason := "Capability emergence rules satisfied"
      fatal := false, requiresReview := false }
  if generated.type == .capability then
    if !jsIncludes generated.code "emergentFrom" then
      { violated := true, warning := false
        reason := "Capability must specify emergentFrom stratum (A5: Capability Emergence)"
        fatal := true, requiresReview := false
        suggestedFix := some "Add emergentFrom: STRATUM to capability definition" }
    else
      let existingCapabilities := ["PERSIST", "SELF_PRODUCE", "FEEL", "EVALUATE", "REPRESENT", "NORM"]
      match extractQuotedWordAfter generated.code "name:" with
      | some n =>
        if existingCapabilities.contains (jsToUpper n) then
          { violated := true, warning := false
            reason := "Capability already exists. Cannot duplicate."
            fatal := true, requiresReview := false }
        else pass
      | none => pass
  else pass

/-- `AxisValidator.checkA10MinimalCharacterization`. -/
def checkA10MinimalCharacterization (generated : GeneratedCode) : AxiomCheckResult :=
  let domainWarning : Option AxiomCheckResult :=
    if generated.type == .domain then
      let existingDomains := ["INERT", "LIVING", "SENTIENT", "SYMBOLIC", "COLLECTIVE", "IDEAL",
                              "EPHEMERAL", "ARTIFICIAL"]
      match extractQuotedWordAfter generated.code "name:" with
      | some n =>
        match existingDomains.find? (fun existing => stringSimilarity (jsToUpper n) existing > 0.7) with
        | some _ =>
          some { violated := false, warning := true
                 reason := "Domain is similar to an existing domain. Verify it is not reducible (A10: Minimal Characterization)"
                 fatal := false, requiresReview := true }
        | none => none
      | none => none
    else none
  match domainWarning with
  | some r => r
  | none =>
    if generated.type == .capability
        && (jsIncludes generated.code " and " || jsIncludes generated.code " or ") then
      { violated := false, warning := true
        reason := "Capability description suggests it might be composite. Consider if it can be decomposed (A10)"
        fatal := false, requiresReview := true }
    else
      { violated := false, warning := false
        reason := "Minimal characterization principle respected"
        fatal := false, requiresReview := false }

/-- `AxisValidator.checkAxiom`: dispatch on the axiom id; non-checkable
axioms pass with a review note. -/
def checkAxiom (ax : Axiom) (generated : GeneratedCode) : AxiomCheckResult :=
  match ax.id with
  | "A2" => checkA2Configuration generated
  | "A3" => checkA3ClosureScope generated
  | "A4" => checkA4StratalNesting generated
  | "A5" => checkA5CapabilityEmergence generated
  | "A10" => checkA10MinimalCharacterization generated
  | _ =>
    { violated := false, warning := !ax.checkable
      reason := if ax.checkable then "Passed" else ax.name ++ " requires human judgment"
      fatal := false
      requiresReview := !ax.checkable && ax.criticalFor.contains generated.type }

/-- `AxisValidator.validateJustification`. -/
def validateJustification (justification : AxiomJustification) : List AxiomWarning :=
  (if justification.overallCompliance < 0.7 then
    [{ axiomId := "META", axiomName := "Self-Assessment"
       description := "Generator self-assessed compliance is low. Extra scrutiny recommended."
       requiresReview := true }]
  else [])
    ++ (justification.axioms.filter (·.status == .needs_review)).map
      (fun item =>
        { axiomId := item.id, axiomName := "Self-flagged: " ++ item.id
          description := item.explanation, requiresReview := true })

/-- Axioms relevant to an artifact: `criticalFor` names its kind or is
empty. -/
def applicableAxioms (generated : GeneratedCode) : List Axiom :=
  AXIOMS.filter (fun a => a.criticalFor.contains generated.type || a.criticalFor.isEmpty)

/-- One iteration of the axiom loop in `AxisValidator.validate`; the
accumulator is `(violations, warnings, passed, reviewReasons)`. -/
def validateStep (generated : GeneratedCode)
    (acc : List AxiomViolation × List AxiomWarning × List String × List String) (ax : Axiom) :
    List AxiomViolation × List AxiomWarning × List String × List String :=
  let r := checkAxiom ax generated
  if r.violated then
    (acc.1
        ++ [{ axiomId := ax.id, axiomName := ax.name, description := r.reason
              severity := if r.fatal then .fatal else .error, suggestedFix := r.suggestedFix }],
      acc.2.1, acc.2.2.1, acc.2.2.2)
  else if r.warning then
    (acc.1,
      acc.2.1 ++ [{ axiomId := ax.id, axiomName := ax.name, description := r.reason
                    requiresReview := r.requiresReview }],
      acc.2.2.1,
      if r.requiresReview then acc.2.2.2 ++ [ax.id ++ ": " ++ r.reason] else acc.2.2.2)
  else
    (acc.1, acc.2.1, acc.2.2.1 ++ [ax.id], acc.2.2.2)

/-- `AxisValidator.validate`. -/
def validate (generated : GeneratedCode) : ValidationResult :=
  let relevantAxioms := applicableAxioms generated
  let acc := relevantAxioms.foldl (validateStep generated) ([], [], [], [])
  let violations := acc.1
  let warnings := acc.2.1 ++ validateJustification generated.axiomJustification
  let passed := acc.2.2.1
  let reviewReasons := acc.2.2.2
  let warningPenalty : ℚ := ((warnings.filter (·.requiresReview)).length : ℚ) * 0.1
  let score := mathMax 0 ((passed.length : ℚ) / (relevantAxioms.length : ℚ) - warningPenalty)
  { valid := violations.length == 0
    score := score
    violations := violations
    warnings := warnings
    passed := passed
    requiresHumanReview := !reviewReasons.isEmpty || violations.any (·.severity == .error)
    reviewReasons := reviewReasons }

/-! ## Review queue (`src/self-production/review-queue.ts`, concatenated into
`gap-analyzer.ts` in this snapshot) -/

/-- Review item lifecycle states (`ReviewStatus`). -/
inductive ReviewStatus
  | pending | approved | rejected | modified | expired
deriving DecidableEq

/-- Review item priority. -/
inductive Priority
  | low | medium | high | critical
deriving DecidableEq

/-- Review item kinds (`ReviewItem.type`). -/
inductive ReviewType
  | code_generation | gap_detection | axiom_tension
deriving DecidableEq

/-- Reviewer decisions (`ReviewFeedback.decision`). -/
inductive ReviewDecision
  | approve | reject | modify
deriving DecidableEq

/-- Human feedback on a review item (`ReviewFeedback`). -/
structure ReviewFeedback where
  decision : ReviewDecision
  reason : String
  modifications : Option String := none
  notes : Option String := none
deriving DecidableEq

/-- A review queue item (`ReviewItem`). -/
structure ReviewItem where
  id : String
  type : ReviewType
  status : ReviewStatus
  sourceGap : Gap
  generatedCode : Option GeneratedCode := none
  validation : Option ValidationResult := none
  createdAt : ℕ
  updatedAt : ℕ
  expiresAt : ℕ
  reviewer : Option String := none
  reviewedAt : Option ℕ := none
  feedback : Option ReviewFeedback := none
  priority : Priority
deriving DecidableEq

/-- Review queue configuration (`ReviewQueueConfig`). -/
structure ReviewQueueConfig where
  expirationTime : ℕ
  maxPending : ℕ
  lowPriorityTimeout : ℕ
deriving DecidableEq

/-- `DEFAULT_CONFIG` of the review queue. -/
def reviewQueueDefaultConfig : ReviewQueueConfig :=
  { expirationTime := 604800000, maxPending := 100, lowPriorityTimeout := 2592000000 }

/-- The review queue state: `items` is the id-keyed `Map` in insertion order,
`itemCounter` backs `generateId`. -/
structure ReviewQueue where
  config : ReviewQueueConfig
  items : List ReviewItem
  itemCounter : ℕ
deriving DecidableEq

/-- `Map.set` semantics on the id-keyed item map: replace in place when the
key exists, append otherwise. -/
def mapSet (items : List ReviewItem) (item : ReviewItem) : List ReviewItem :=
  if items.any (fun x => x.id == item.id) then
    items.map (fun x => if x.id == item.id then item else x)
  else items ++ [item]

/-- `review_${Date.now()}_${++this.itemCounter}`. -/
def reviewId (now counter : ℕ) : String :=
  "review_" ++ toString now ++ "_" ++ toString counter

/-- `ReviewQueue.determinePriority`. -/
def determinePriority (gap : Gap) (validation : ValidationResult) : Priority :=
  if gap.type == .axiom_tension then .critical
  else if validation.violations.length > 0 then .high
  else if gap.severity == .critical then .critical
  else if gap.severity == .high then .high
  else if gap.severity == .medium then .medium
  else .low

/-- `ReviewQueue.expireOldItems`: lazily expire pending items whose deadline
has passed. -/
def expireOldItems (now : ℕ) (q : ReviewQueue) : ReviewQueue :=
  { q with
    items := q.items.map (fun item =>
      if item.status == .pending && item.expiresAt < now then
        { item with status := .expired, updatedAt := now }
      else item) }

/-- The `priorityOrder` table of `ReviewQueue.listPending`. -/
def priorityOrder : Priority → ℕ
  | .critical => 0
  | .high => 1
  | .medium => 2
  | .low => 3

/-- The comparator of `ReviewQueue.listPending` as a total boolean `≤`:
priority rank first, then creation time ascending. -/
def pendingLE (a b : ReviewItem) : Bool :=
  priorityOrder a.priority < priorityOrder b.priority
    || (priorityOrder a.priority == priorityOrder b.priority && a.createdAt ≤ b.createdAt)

/-- Creation-time comparator used on the low-priority slice in
`ReviewQueue.enforceMaxPending`. -/
def createdLE (a b : ReviewItem) : Bool :=
  a.createdAt ≤ b.createdAt

/-- `ReviewQueue.listPending`: expire old items, then the pending items
sorted by priority and age (stable, as `Array.prototype.sort`). -/
def ReviewQueue.listPending (q : ReviewQueue) (now : ℕ) : List ReviewItem × ReviewQueue :=
  let q1 := expireOldItems now q
  ((q1.items.filter (fun item => item.status == .pending)).mergeSort pendingLE, q1)

/-- `ReviewQueue.enforceMaxPending`: when the pending count exceeds the
configured maximum, mark the oldest low-priority pending items expired until
back at the maximum (or no low-priority pending items remain). -/
def enforceMaxPending (now : ℕ) (q : ReviewQueue) : ReviewQueue :=
  let pending := (q.listPending now).1
  let q1 := (q.listPending now).2
  if pending.length > q.config.maxPending then
    let lowPriority := (pending.filter (fun i => i.priority == .low)).mergeSort createdLE
    let toRemove := pending.length - q.config.maxPending
    let expiredIds := (lowPriority.take toRemove).map (fun i => i.id)
    { q1 with
      items := q1.items.map (fun item =>
        if expiredIds.contains item.id then
          { item with status := .expired, updatedAt := now }
        else item) }
  else q1

/-- `ReviewQueue.addCodeReview`. -/
def ReviewQueue.addCodeReview (q : ReviewQueue) (now : ℕ) (gap : Gap)
    (generatedCode : GeneratedCode) (validation : ValidationResult) :
    ReviewItem × ReviewQueue :=
  let item : ReviewItem :=
    { id := reviewId now (q.itemCounter + 1)
      type := .code_generation
      status := .pending
      sourceGap := gap
      generatedCode := some generatedCode
      validation := some validation
      createdAt := now
      updatedAt := now
      expiresAt := now + q.config.expirationTime
      priority := determinePriority gap validation }
  (item, enforceMaxPending now
    { q with items := mapSet q.items item, itemCounter := q.itemCounter + 1 })

/-- `ReviewQueue.addGapReview`. -/
def ReviewQueue.addGapReview (q : ReviewQueue) (now : ℕ) (gap : Gap) :
    ReviewItem × ReviewQueue :=
  let item : ReviewItem :=
    { id := reviewId now (q.itemCounter + 1)
      type := .gap_detection
      status := .pending
      sourceGap := gap
      createdAt := now
      updatedAt := now
      expiresAt := now + q.config.expirationTime
      priority := if gap.severity == .critical then .critical
        else if gap.severity == .high then .high else .medium }
  (item, enforceMaxPending now
    { q with items := mapSet q.items item, itemCounter := q.itemCounter + 1 })

/-- `ReviewQueue.addAxiomReview`.  Unlike the other two entry paths it does
NOT call `enforceMaxPending`. -/
def ReviewQueue.addAxiomReview (q : ReviewQueue) (now : ℕ) (gap : Gap) :
    ReviewItem × ReviewQueue :=
  let item : ReviewItem :=
    { id := reviewId now (q.itemCounter + 1)
      type := .axiom_tension
      status := .pending
      sourceGap := gap
      createdAt := now
      updatedAt := now
      expiresAt := now + q.config.expirationTime
      priority := if gap.severity == .critical then .critical else .high }
  (item, { q with items := mapSet q.items item, itemCounter := q.itemCounter + 1 })

/-- `ReviewQueue.approve`: a thrown `Error` is `Except.error` with the queue
unchanged. -/
def ReviewQueue.approve (q : ReviewQueue) (id reviewer : String) (notes : Option String)
    (now : ℕ) : Except String ReviewItem × ReviewQueue :=
  match q.items.find? (fun x => x.id == id) with
  | none => (.error ("Review item " ++ id ++ " not found"), q)
  | some item =>
    if item.status != .pending then
      (.error ("Item " ++ id ++ " is not pending"), q)
    else
      let item' := { item with
        status := .approved
        reviewer := some reviewer
        reviewedAt := some now
        updatedAt := now
        feedback := some { decision := .approve
                           reason := jsOrDefault notes "Approved without notes" } }
      (.ok item', { q with items := mapSet q.items item' })

/-- `ReviewQueue.reject`. -/
def ReviewQueue.reject (q : ReviewQueue) (id reviewer reason : String) (now : ℕ) :
    Except String ReviewItem × ReviewQueue :=
  match q.items.find? (fun x => x.id == id) with
  | none => (.error ("Review item " ++ id ++ " not found"), q)
  | some item =>
    if item.status != .pending then
      (.error ("Item " ++ id ++ " is not pending"), q)
    else
      let item' := { item with
        status := .rejected
        reviewer := some reviewer
        reviewedAt := some now
        updatedAt := now
        feedback := some { decision := .reject, reason := reason } }
      (.ok item', { q with items := mapSet q.items item' })

/-- `ReviewQueue.modifyAndApprove`: records the feedback and overwrites the
artifact's code payload with the modifications. -/
def ReviewQueue.modifyAndApprove (q : ReviewQueue) (id reviewer modifications : String)
    (notes : Option String) (now : ℕ) : Except String ReviewItem × ReviewQueue :=
  match q.items.find? (fun x => x.id == id) with
  | none => (.error ("Review item " ++ id ++ " not found"), q)
  | some item =>
    if item.status != .pending then
      (.error ("Item " ++ id ++ " is not pending"), q)
    else
      let item' := { item with
        status := .modified
        reviewer := some reviewer
        reviewedAt := some now
        updatedAt := now
        feedback := some { decision := .modify
                           reason := jsOrDefault notes "Modified before approval"
                           modifications := some modifications } }
      let item' := match item'.generatedCode with
        | some gc => { item' with generatedCode := some { gc with code := modifications } }
        | none => item'
      (.ok item', { q with items := mapSet q.items item' })

/-- `ReviewQueue.markIntegrated`: delete the item from the map. -/
def markIntegrated (q : ReviewQueue) (id : String) : ReviewQueue :=
  { q with items := q.items.filter (fun item => !(item.id == id)) }

/-- `ReviewQueue.getApprovedForIntegration`. -/
def getApprovedForIntegration (q : ReviewQueue) : List ReviewItem :=
  q.items.filter (fun item =>
    (item.status == .approved || item.status == .modified) && item.generatedCode.isSome)

/-! ## Integrator (`src/self-production/integrator.ts`) and the engine
(`src/self-production/index.ts`, concatenated into `integrator.ts`) -/

/-- The file system the integrator touches, as a path-keyed map of file
contents in creation order. -/
structure FS where
  files : List (String × String)
deriving DecidableEq

/-- `fs.existsSync`. -/
def FS.existsSync (fs : FS) (p : String) : Bool := fs.files.any (fun f => f.1 == p)

/-- `fs.readFileSync` (only ever called on existing files by the source). -/
def FS.readFileSync (fs : FS) (p : String) : String :=
  ((fs.files.find? (fun f => f.1 == p)).map Prod.snd).getD ""

/-- `fs.writeFileSync`. -/
def FS.writeFileSync (fs : FS) (p content : String) : FS :=
  if fs.files.any (fun f => f.1 == p) then
    ⟨fs.files.map (fun f => if f.1 == p then (p, content) else f)⟩
  else ⟨fs.files ++ [(p, content)]⟩

/-- `fs.copyFileSync`. -/
def FS.copyFileSync (fs : FS) (src dst : String) : FS :=
  fs.writeFileSync dst (fs.readFileSync src)

/-- `path.join` (simplified to separator concatenation; the theorems treat
joined paths as opaque keys). -/
def pathJoin (a b : String) : String := a ++ "/" ++ b

/-- `path.basename`: the final path component. -/
def basename (p : String) : String :=
  ((p.toList.reverse.takeWhile (fun c => c ≠ '/')).reverse).asString

/-- Integrator configuration (`IntegratorConfig`). -/
structure IntegratorConfig where
  baseDir : String
  createBackups : Bool
  backupDir : String
  dryRun : Bool
deriving DecidableEq

/-- `DEFAULT_CONFIG` of the integrator (`baseDir` is `process.cwd()` and so
left to the instantiation site). -/
def integratorDefaultConfig (cwd : String) : IntegratorConfig :=
  { baseDir := cwd, createBackups := true, backupDir := ".atlas-backups", dryRun := false }

/-- Outcome kind of an integration attempt. -/
inductive IntegrationAction
  | created | modified | failed
deriving DecidableEq

/-- `IntegrationResult`. -/
structure IntegrationResult where
  success : Bool
  itemId : String
  generatedCodeId : String
  targetFile : String
  action : IntegrationAction
  error : Option String := none
  backup : Option String := none
  timestamp : ℕ
deriving DecidableEq

/-- `IntegrationHistoryEntry` (the optional `gitCommit` field is never set by
the source and is elided). -/
structure IntegrationHistoryEntry where
  id : String
  reviewItemId : String
  generatedCodeId : String
  type : GenerationType
  name : String
  targetFile : String
  integratedAt : ℕ
  integratedBy : String
  canRollback : Bool
  backupPath : Option String := none
deriving DecidableEq

/-- Integrator state: configuration plus the append-only history ledger. -/
structure Integrator where
  config : IntegratorConfig
  history : List IntegrationHistoryEntry
deriving DecidableEq

/-- Backup file path built by `Integrator.createBackup`:
`backupDir/basename.timestamp.generatedId.bak`. -/
def mkBackupPath (config : IntegratorConfig) (targetPath generatedId : String) (now : ℕ) :
    String :=
  pathJoin (pathJoin config.baseDir config.backupDir)
    (basename targetPath ++ "." ++ toString now ++ "." ++ generatedId ++ ".bak")

/-- Split the haystack at the first occurrence of `pat`: the text before the
match and the suffix starting at the match (`String.prototype.indexOf`). -/
def splitFirst (pat : List Char) : List Char → Option (List Char × List Char)
  | [] => if isPre pat [] then some ([], []) else none
  | c :: t =>
    if isPre pat (c :: t) then some ([], c :: t)
    else
      match splitFirst pat t with
      | some (pre, suf) => some (c :: pre, suf)
      | none => none

/-- `content.replace(pat, new)` with a string pattern: first occurrence only,
unchanged when absent.  (`$`-substitution patterns in the replacement are not
modelled; no generated payload contains one.) -/
def jsReplaceFirst (content pat newCode : String) : String :=
  match splitFirst pat.toList content.toList with
  | some (pre, suf) => pre.asString ++ newCode ++ (suf.drop pat.toList.length).asString
  | none => content

/-- `Integrator.applyInsertion`: JavaScript truthiness guards each field, so
an empty-string marker falls through to the next strategy. -/
def applyInsertion (content newCode : String) (insertion : InsertionPoint) : String :=
  if insertion.append then content ++ "\n" ++ newCode
  else if optTruthy insertion.replace then
    jsReplaceFirst content (insertion.replace.getD "") newCode
  else if optTruthy insertion.after then
    let aft := (insertion.after.getD "").toList
    match splitFirst aft content.toList with
    | none => content ++ "\n\n// AUTO-GENERATED CODE BELOW\n" ++ newCode
    | some (pre, suf) =>
      (pre ++ aft).asString ++ "\n" ++ newCode ++ (suf.drop aft.length).asString
  else if optTruthy insertion.before then
    match splitFirst (insertion.before.getD "").toList content.toList with
    | none => newCode ++ "\n\n" ++ content
    | some (pre, suf) => pre.asString ++ newCode ++ "\n" ++ suf.asString
  else content ++ "\n" ++ newCode

/-- `Integrator.wrapNewFile`: provenance header plus the payload (the ISO
date is rendered as the raw timestamp). -/
def wrapNewFile (now : ℕ) (generated : GeneratedCode) : String :=
  "/**\n * " ++ generated.name ++ "\n *\n * " ++ generated.description
    ++ "\n *\n * @generated by Atlas Self-Production Engine\n * @date " ++ toString now
    ++ "\n * @source gap: " ++ generated.sourceGap.id ++ "\n */\n\n" ++ generated.code

/-- `Integrator.applyCode` (directory creation is invisible in this file
model). -/
def applyCode (config : IntegratorConfig) (now : ℕ) (generated : GeneratedCode) (fs : FS) :
    IntegrationAction × FS :=
  let targetPath := pathJoin config.baseDir generated.targetFile
  if config.dryRun then
    ((if fs.existsSync targetPath then .modified else .created), fs)
  else if !fs.existsSync targetPath then
    (.created, fs.writeFileSync targetPath (wrapNewFile now generated))
  else
    let content := fs.readFileSync targetPath
    (.modified, fs.writeFileSync targetPath (applyInsertion content generated.code generated.insertionPoint))

/-- `Integrator.integrate`.  The `try`/`catch` of the source only catches file
system errors, which this model's total file system cannot produce, so the
failure branch reachable here is the missing-payload one. -/
def Integrator.integrate (ig : Integrator) (fs : FS) (now : ℕ) (reviewItem : ReviewItem) :
    IntegrationResult × Integrator × FS :=
  match reviewItem.generatedCode with
  | none =>
    ({ success := false, itemId := reviewItem.id, generatedCodeId := "", targetFile := ""
       action := .failed, error := some "No generated code in review item", timestamp := now },
      ig, fs)
  | some generated =>
    let targetPath := pathJoin ig.config.baseDir generated.targetFile
    let backupTaken := ig.config.createBackups && fs.existsSync targetPath
    let backupPath := if backupTaken then some (mkBackupPath ig.config targetPath generated.id now)
      else none
    let fs1 := if backupTaken then fs.copyFileSync targetPath (mkBackupPath ig.config targetPath generated.id now)
      else fs
    let applied := applyCode ig.config now generated fs1
    let entry : IntegrationHistoryEntry :=
      { id := "int_" ++ toString now
        reviewItemId := reviewItem.id
        generatedCodeId := generated.id
        type := generated.type
        name := generated.name
        targetFile := generated.targetFile
        integratedAt := now
        integratedBy := jsOrDefault reviewItem.reviewer "system"
        canRollback := backupPath.isSome
        backupPath := backupPath }
    ({ success := true, itemId := reviewItem.id, generatedCodeId := generated.id
       targetFile := generated.targetFile, action := applied.1, backup := backupPath
       timestamp := now },
      { ig with history := ig.history ++ [entry] }, applied.2)

/-- Flip `canRollback` on the first history entry with the given id (the
`find`-then-mutate of the source). -/
def markRolledBack : List IntegrationHistoryEntry → String → List IntegrationHistoryEntry
  | [], _ => []
  | h :: t, iid =>
    if h.id == iid then { h with canRollback := false } :: t else h :: markRolledBack t iid

/-- `Integrator.rollback`: restore the backup verbatim and flip the record's
rollback flag; a record with no backup or already rolled back throws. -/
def Integrator.rollback (ig : Integrator) (fs : FS) (integrationId : String) :
    Except String Bool × Integrator × FS :=
  match ig.history.find? (fun h => h.id == integrationId) with
  | none => (.error ("Integration " ++ integrationId ++ " not found"), ig, fs)
  | some entry =>
    if !entry.canRollback || !optTruthy entry.backupPath then
      (.error ("Integration " ++ integrationId ++ " cannot be rolled back"), ig, fs)
    else
      let targetPath := pathJoin ig.config.baseDir entry.targetFile
      if ig.config.dryRun then (.ok true, ig, fs)
      else
        (.ok true, { ig with history := markRolledBack ig.history integrationId },
          fs.copyFileSync (entry.backupPath.getD "") targetPath)

/-- The engine state `SelfProductionEngine` threads through its surface
operations: the review queue and the integrator. -/
structure EngineState where
  reviewQueue : ReviewQueue
  integrator : Integrator
deriving DecidableEq

/-- `SelfProductionEngine.integrateApproved`: requires `approved` or
`modified`, integrates, and deletes the item from the queue on success. -/
def integrateApproved (eng : EngineState) (fs : FS) (now : ℕ) (reviewId : String) :
    Except String IntegrationResult × EngineState × FS :=
  match eng.reviewQueue.items.find? (fun x => x.id == reviewId) with
  | none => (.error ("Review item " ++ reviewId ++ " not found"), eng, fs)
  | some item =>
    if item.status != .approved && item.status != .modified then
      (.error ("Item " ++ reviewId ++ " is not approved"), eng, fs)
    else
      let r := eng.integrator.integrate fs now item
      let queue' := if r.1.success then markIntegrated eng.reviewQueue reviewId
        else eng.reviewQueue
      (.ok r.1, { reviewQueue := queue', integrator := r.2.1 }, r.2.2)

/-! ## Concrete fixtures used by witnesses and counterexamples -/

/-- A medium-severity misfit gap. -/
def gapW : Gap :=
  { id := "gap_0_1", type := .domain_misfit, severity := .medium, evidence := []
    suggestedAction := { type := .new_domain, confidence := 0.6 }, detectedAt := 0 }

/-- A critical axiom-tension gap. -/
def gapCritW : Gap :=
  { id := "gap_0_2", type := .axiom_tension, severity := .critical, evidence := []
    suggestedAction := { type := .axiom_review, confidence := 0.95 }, detectedAt := 0 }

/-- A small generated artifact targeting the domains file. -/
def gcW : GeneratedCode :=
  { id := "gen_domain_0_1", type := .domain, name := "TESTDOM"
    description := "test domain"
    code := "export const DOMAIN_TESTDOM = 1;"
    targetFile := "src/core/domains.ts"
    insertionPoint := { file := "src/core/domains.ts", append := true }
    dependencies := []
    axiomJustification := { axioms := [], overallCompliance := 1 }
    generatedAt := 0, sourceGap := gapW }

/-- An already-approved review item (terminal state). -/
def itemApprovedW : ReviewItem :=
  { id := "review_0_1", type := .gap_detection, status := .approved, sourceGap := gapW
    createdAt := 0, updatedAt := 0, expiresAt := 1000, priority := .medium }

/-- A queue holding only the approved item. -/
def queueApprovedW : ReviewQueue :=
  { config := reviewQueueDefaultConfig, items := [itemApprovedW], itemCounter := 1 }

/-- A pending review item carrying the artifact `gcW`. -/
def itemPendingW : ReviewItem :=
  { id := "review_0_2", type := .code_generation, status := .pending, sourceGap := gapW
    generatedCode := some gcW
    createdAt := 0, updatedAt := 0, expiresAt := 1000, priority := .medium }

/-- A queue holding only the pending item. -/
def queuePendingW : ReviewQueue :=
  { config := reviewQueueDefaultConfig, items := [itemPendingW], itemCounter := 2 }

/-- An engine whose queue holds only the pending item and whose integrator
has an empty history. -/
def engPendingW : EngineState :=
  { reviewQueue := queuePendingW
    integrator := { config := integratorDefaultConfig "/atlas", history := [] } }

/-- An empty file system. -/
def fsEmptyW : FS := ⟨[]⟩

/-- An INERT entity sitting exactly at its domain's typical pair. -/
def entityTypicalW : Entity :=
  { id := "rock", name := "Rock", domain := .INERT
    config := { closure := 0.3, scope := 0.2
                strata := { MATTER := true, LIFE := false, SENTIENCE := false, LOGOS := false }
                relations := [], uncertainty := 0.1 } }

/-- The demo's quantum-computer entity: closure 0.85, scope 0.75, strata
{MATTER, LOGOS}, ARTIFICIAL domain (not the exempt one). -/
def entityTensionW : Entity :=
  { id := "quantum_computer", name := "Quantum Computer", domain := .ARTIFICIAL
    config := { closure := 0.85, scope := 0.75
                strata := { MATTER := true, LIFE := false, SENTIENCE := false, LOGOS := true }
                relations := [], uncertainty := 0.4 } }

/-- The history entry `Integrator.integrate` appends on a successful apply
with a backup taken (named here so the integration proofs can refer to it). -/
def integrationEntryOf (ig0 : Integrator) (item : ReviewItem) (gc : GeneratedCode)
    (now : ℕ) : IntegrationHistoryEntry :=
  { id := "int_" ++ toString now
    reviewItemId := item.id
    generatedCodeId := gc.id
    type := gc.type
    name := gc.name
    targetFile := gc.targetFile
    integratedAt := now
    integratedBy := jsOrDefault item.reviewer "system"
    canRollback := true
    backupPath := some (mkBackupPath ig0.config
      (pathJoin ig0.config.baseDir gc.targetFile) gc.id now) }

/-- A rollbackable integration record whose backup file exists in `fsW`. -/
def entryW : IntegrationHistoryEntry :=
  { id := "int_5", reviewItemId := "review_0_2", generatedCodeId := "gen_domain_0_1"
    type := .domain, name := "TESTDOM", targetFile := "src/core/domains.ts"
    integratedAt := 5, integratedBy := "alice", canRollback := true
    backupPath := some "/atlas/.atlas-backups/domains.ts.5.gen_domain_0_1.bak" }

/-- A record already rolled back (flag off). -/
def entryRolledW : IntegrationHistoryEntry :=
  { entryW with id := "int_6", canRollback := false }

/-- An integrator with the two records above. -/
def igW : Integrator :=
  { config := integratorDefaultConfig "/atlas", history := [entryW, entryRolledW] }

/-- A file system holding the target file and the backup. -/
def fsW : FS :=
  ⟨[("/atlas/src/core/domains.ts", "current-content"),
    ("/atlas/.atlas-backups/domains.ts.5.gen_domain_0_1.bak", "backup-content")]⟩

/-- The pending item of `queuePendingW`, now approved. -/
def itemApprovedCodeW : ReviewItem :=
  { itemPendingW with id := "review_0_3", status := .approved, reviewer := some "alice" }

/-- The batch `enforceMaxPending` expires: the first `pending − max` of the
creation-sorted low-priority pending items (of an item table `L`). -/
def sweepBatch (L : List ReviewItem) (maxP : ℕ) : List ReviewItem :=
  ((((L.filter (fun it => it.status == .pending)).mergeSort pendingLE).filter
      (fun i => i.priority == .low)).mergeSort createdLE).take
    (((L.filter (fun it => it.status == .pending)).mergeSort pendingLE).length - maxP)

/-- The per-item marking `enforceMaxPending` applies to the item table. -/
def markFun (now : ℕ) (L : List ReviewItem) (maxP : ℕ) (item : ReviewItem) : ReviewItem :=
  if ((sweepBatch L maxP).map (fun i => i.id)).contains item.id then
    { item with status := .expired, updatedAt := now }
  else item

/-- A low-priority pending item, oldest in the capacity fixtures. -/
def itemLowW : ReviewItem :=
  { id := "review_cap_low", type := .gap_detection, status := .pending, sourceGap := gapW
    createdAt := 0, updatedAt := 0, expiresAt := 1000, priority := .low }

/-- A high-priority pending item, younger than `itemLowW`. -/
def itemHighW : ReviewItem :=
  { id := "review_cap_high", type := .gap_detection, status := .pending, sourceGap := gapW
    createdAt := 5, updatedAt := 5, expiresAt := 1000, priority := .high }

/-- A queue with capacity one holding a single low-priority pending item. -/
def queueCapW : ReviewQueue :=
  { config := { reviewQueueDefaultConfig with maxPending := 1 }
    items := [itemLowW], itemCounter := 1 }

/-- A queue with capacity one already holding two pending items. -/
def queueCap2W : ReviewQueue :=
  { config := { reviewQueueDefaultConfig with maxPending := 1 }
    items := [itemLowW, itemHighW], itemCounter := 2 }

/-! ## Theorems -/

/-- C1: a review item whose status is not `pending` cannot be approved,
rejected or modified: each of the three operations throws a state-conflict
error and leaves the queue (hence the item) unchanged.  Since every
successful operation sets a non-`pending` status, an item therefore
transitions out of `pending` at most once. -/
theorem nonpending_ops_fail (q : ReviewQueue) (id reviewer : String) (notes : Option String)
    (reason modifications : String) (now : ℕ) (item : ReviewItem)
    (hfind : q.items.find? (fun x => x.id == id) = some item)
    (hstatus : item.status ≠ .pending) :
    (∃ e, q.approve id reviewer notes now = (.error e, q))
      ∧ (∃ e, q.reject id reviewer reason now = (.error e, q))
      ∧ (∃ e, q.modifyAndApprove id reviewer modifications notes now = (.error e, q)) := by
  have hb : (item.status != .pending) = true := by
    cases h : item.status <;> first | decide | exact absurd h hstatus
  refine ⟨⟨"Item " ++ id ++ " is not pending", ?_⟩,
          ⟨"Item " ++ id ++ " is not pending", ?_⟩,
          ⟨"Item " ++ id ++ " is not pending", ?_⟩⟩ <;>
    simp [ReviewQueue.approve, ReviewQueue.reject, ReviewQueue.modifyAndApprove, hfind, hb]

/-- C1 witness: the three operations all fail on a concrete approved item. -/
theorem nonpending_ops_fail_witness :
    (∃ e, queueApprovedW.approve "review_0_1" "alice" none 5 = (.error e, queueApprovedW))
      ∧ (∃ e, queueApprovedW.reject "review_0_1" "alice" "r" 5 = (.error e, queueApprovedW))
      ∧ (∃ e, queueApprovedW.modifyAndApprove "review_0_1" "alice" "m" none 5
            = (.error e, queueApprovedW)) :=
  nonpending_ops_fail queueApprovedW "review_0_1" "alice" none "r" "m" 5 itemApprovedW
    rfl (by decide)

/-- C3: integrating a review item whose status is neither `approved` nor
`modified` fails fast with a state error: the engine returns the error and
both the file system (no write) and the integrator history (no new record)
and the review queue are unchanged. -/
theorem integrate_nonapproved_fails (eng : EngineState) (fs : FS) (now : ℕ)
    (rid : String) (item : ReviewItem)
    (hfind : eng.reviewQueue.items.find? (fun x => x.id == rid) = some item)
    (hnotApproved : item.status ≠ .approved) (hnotModified : item.status ≠ .modified) :
    ∃ e, integrateApproved eng fs now rid = (.error e, eng, fs) := by
  have hb : (item.status != ReviewStatus.approved && item.status != ReviewStatus.modified)
      = true := by
    cases h : item.status <;>
      first | decide | exact absurd h hnotApproved | exact absurd h hnotModified
  refine ⟨"Item " ++ rid ++ " is not approved", ?_⟩
  simp [integrateApproved, hfind, hb]

/-- C3 witness: integrating a concrete still-pending item fails and changes
nothing. -/
theorem integrate_nonapproved_fails_witness :
    ∃ e, integrateApproved engPendingW fsEmptyW 7 "review_0_2" = (.error e, engPendingW, fsEmptyW) :=
  integrate_nonapproved_fails engPendingW fsEmptyW 7 "review_0_2" itemPendingW
    rfl (by decide) (by decide)

/-- C10: on a pending item carrying an artifact, `modifyAndApprove` records
the reviewer feedback and overwrites the artifact's code payload with the
modifications string, leaving every other artifact field (name, target file,
insertion point, justification, ...) unchanged, so a later integration reads
the reviewer-edited text. -/
theorem modifyAndApprove_overwrites_code (q : ReviewQueue) (id reviewer modifications : String)
    (notes : Option String) (now : ℕ) (item : ReviewItem) (gc : GeneratedCode)
    (hfind : q.items.find? (fun x => x.id == id) = some item)
    (hstatus : item.status = .pending)
    (hgc : item.generatedCode = some gc) :
    ∃ item',
      q.modifyAndApprove id reviewer modifications notes now
          = (.ok item', { q with items := mapSet q.items item' })
        ∧ item'.status = .modified
        ∧ item'.generatedCode = some { gc with code := modifications }
        ∧ item'.feedback = some { decision := .modify
                                  reason := jsOrDefault notes "Modified before approval"
                                  modifications := some modifications } := by
  have hb : (item.status != .pending) = false := by
    rw [hstatus]; decide
  simp only [ReviewQueue.modifyAndApprove, hfind, hb, hgc, Bool.false_eq_true, if_false]
  exact ⟨_, rfl, rfl, rfl, rfl⟩

/-- C10 witness: the concrete pending item's artifact has its code replaced
by the modification text and nothing else changed. -/
theorem modifyAndApprove_overwrites_code_witness :
    ∃ item',
      queuePendingW.modifyAndApprove "review_0_2" "alice" "edited code" none 9
          = (.ok item', { queuePendingW with items := mapSet queuePendingW.items item' })
        ∧ item'.status = .modified
        ∧ item'.generatedCode = some { gcW with code := "edited code" }
        ∧ item'.feedback = some { decision := .modify
                                  reason := jsOrDefault none "Modified before approval"
                                  modifications := some "edited code" } :=
  modifyAndApprove_overwrites_code queuePendingW "review_0_2" "alice" "edited code" none 9
    itemPendingW gcW rfl rfl rfl

/-- C8: the domain-fit score is exactly
`1 − (|closure − typicalClosure| + |scope − typicalScope|)/2` for the
entity's domain, and an entity sitting exactly at its domain's typical pair
scores 1 and is never collected as a misfit (for any threshold ≤ 1, which
includes the default 0.4). -/
theorem domainFitScore_spec (e : Entity) (config : GapAnalyzerConfig) :
    calculateDomainFitScore e =
        1 - (mathAbs (e.config.closure - (domainCharacteristics e.domain).1)
              + mathAbs (e.config.scope - (domainCharacteristics e.domain).2)) / 2
      ∧ (e.config.closure = (domainCharacteristics e.domain).1 →
          e.config.scope = (domainCharacteristics e.domain).2 →
          calculateDomainFitScore e = 1
            ∧ (config.domainMisfitThreshold ≤ 1 →
                ∀ entities, e ∉ domainMisfitCandidates config entities)) := by
  refine ⟨rfl, ?_⟩
  intro hc hs
  have hscore : calculateDomainFitScore e = 1 := by
    norm_num [calculateDomainFitScore, mathAbs, hc, hs]
  refine ⟨hscore, ?_⟩
  intro hth entities hmem
  have hlt : calculateDomainFitScore e < config.domainMisfitThreshold :=
    of_decide_eq_true (List.mem_filter.mp hmem).2
  rw [hscore] at hlt
  linarith

/-- C8 witness: the concrete INERT entity at (0.3, 0.2) scores 1 and is not a
misfit under the default configuration. -/
theorem domainFitScore_spec_witness :
    calculateDomainFitScore entityTypicalW = 1
      ∧ ∀ entities, entityTypicalW ∉ domainMisfitCandidates gapAnalyzerDefaultConfig entities :=
  let h := (domainFitScore_spec entityTypicalW gapAnalyzerDefaultConfig).2 rfl rfl
  ⟨h.1, fun entities => h.2 (by norm_num [gapAnalyzerDefaultConfig]) entities⟩

/-- C9: for every characteristics list the inferred `compatibleStrata` is a
contiguous prefix of MATTER → LIFE → SENTIENCE → LOGOS that contains MATTER
(so no level is ever skipped), and for characteristics
`["autonomous", "global"]` the inferred typical closure and scope are both
strictly greater than 0.5. -/
theorem inferCompatibleStrata_prefix :
    (∀ characteristics, inferCompatibleStrata characteristics <+: strataOrder
        ∧ Stratum.MATTER ∈ inferCompatibleStrata characteristics)
      ∧ inferTypicalClosure ["autonomous", "global"] > 1/2
      ∧ inferTypicalScope ["autonomous", "global"] > 1/2 := by
  have key : ∀ b1 b2 b3 : Bool,
      jsSetDedup ([Stratum.MATTER] ++ (if b1 then [Stratum.LIFE] else [])
          ++ (if b2 then [Stratum.LIFE, Stratum.SENTIENCE] else [])
          ++ (if b3 then [Stratum.LIFE, Stratum.SENTIENCE, Stratum.LOGOS] else []))
          <+: strataOrder
        ∧ Stratum.MATTER ∈ jsSetDedup ([Stratum.MATTER] ++ (if b1 then [Stratum.LIFE] else [])
          ++ (if b2 then [Stratum.LIFE, Stratum.SENTIENCE] else [])
          ++ (if b3 then [Stratum.LIFE, Stratum.SENTIENCE, Stratum.LOGOS] else [])) := by
    decide
  refine ⟨fun characteristics => key _ _ _, ?_, ?_⟩
  · have h1 : kwHit closureKeywords "autonomous" = true := by decide
    have h2 : kwHit openKeywords "autonomous" = false := by decide
    have h3 : kwHit closureKeywords "global" = false := by decide
    have h4 : kwHit openKeywords "global" = false := by decide
    simp [inferTypicalClosure, h1, h2, h3, h4]
    norm_num [mathMax, mathMin]
  · have h1 : kwHit broadKeywords "autonomous" = false := by decide
    have h2 : kwHit narrowKeywords "autonomous" = false := by decide
    have h3 : kwHit broadKeywords "global" = true := by decide
    have h4 : kwHit narrowKeywords "global" = false := by decide
    simp [inferTypicalScope, h1, h2, h3, h4]
    norm_num [mathMax, mathMin]

/-- C2: for every generated artifact, the validation result is `valid`
exactly when its violations list is empty, and its score is
`max(0, passed-rule-count / applicable-rule-count − 0.1 × review-flagged
warning count)`. -/
theorem validate_valid_iff_and_score (generated : GeneratedCode) :
    ((validate generated).valid = true ↔ (validate generated).violations = [])
      ∧ (validate generated).score
          = mathMax 0 (((validate generated).passed.length : ℚ)
                / ((applicableAxioms generated).length : ℚ)
              - 0.1 * (((validate generated).warnings.filter
                  (fun w => w.requiresReview)).length : ℚ)) := by
  constructor
  · show ((validate generated).violations.length == 0) = true ↔ _
    simp
  · show mathMax 0 (((validate generated).passed.length : ℚ)
          / ((applicableAxioms generated).length : ℚ)
        - (((validate generated).warnings.filter
            (fun w => w.requiresReview)).length : ℚ) * 0.1) = _
    rw [mul_comm]

/-- C4 counterexample: for the concrete non-exempt (ARTIFICIAL) entity with
closure 0.85, scope 0.75 and strata {MATTER, LOGOS}, the axiom-tension scan
emits exactly one gap — the critical nesting one routed to axiom review — and
NO separate low-severity closure-scope tension gap, contradicting the claim
that such an entity also gets the tension gap. -/
theorem axiomTension_counterexample :
    (analyzeAxiomTensions 0 0 [entityTensionW]).map
        (fun g => (g.severity, g.suggestedAction.type))
      = [(Severity.critical, ActionType.axiom_review)]
      ∧ entityTensionW.domain ≠ .IDEAL := by
  have hcs : ¬(entityTensionW.config.closure > 0.8 ∧ entityTensionW.config.scope > 0.8) := by
    norm_num [entityTensionW]
  have hd : (entityTensionW.domain == Domain.IDEAL) = false := by decide
  have hn : respectsStratalNesting (getActiveStrata entityTensionW) = false := by decide
  refine ⟨?_, by decide⟩
  simp [analyzeAxiomTensions, axiomTensionGapsFor, hcs, hd, hn, gapId, List.enum, List.enumFrom]

/-- C4 amended: for every entity with closure 0.85, scope 0.75 and strata
{MATTER, LOGOS}: when its domain is not the exempt IDEAL one, the analyzer
emits exactly one axiom-tension gap for it — the critical rule-tension gap
whose suggested action is `axiom_review` — and no low-severity closure-scope
tension gap (the tension rule fires only when closure AND scope both exceed
0.8, and 0.75 does not); when its domain is IDEAL, the exemption skips the
entity entirely and no axiom-tension gap at all is emitted. -/
theorem axiomTension_nesting_critical (e : Entity) (now counter : ℕ)
    (hc : e.config.closure = 0.85) (hs : e.config.scope = 0.75)
    (hstr : e.config.strata = ⟨true, false, false, true⟩) :
    (e.domain ≠ .IDEAL →
      (analyzeAxiomTensions now counter [e]).map
          (fun g => (g.severity, g.suggestedAction.type))
        = [(Severity.critical, ActionType.axiom_review)])
      ∧ (e.domain = .IDEAL → analyzeAxiomTensions now counter [e] = []) := by
  have hcs : ¬(e.config.closure > 0.8 ∧ e.config.scope > 0.8) := by
    rw [hc, hs]; norm_num
  have hga : getActiveStrata e = [Stratum.MATTER, Stratum.LOGOS] := by
    simp [getActiveStrata, hstr]
  have hn : respectsStratalNesting (getActiveStrata e) = false := by
    rw [hga]; decide
  constructor
  · intro hdom
    have hb : (e.domain == Domain.IDEAL) = false := by
      cases h : e.domain <;> first | decide | exact absurd h hdom
    simp [analyzeAxiomTensions, axiomTensionGapsFor, hb, hcs, hn, gapId]
  · intro hdom
    simp [analyzeAxiomTensions, axiomTensionGapsFor, hdom]

/-- C4 witness: the amended statement applied to the concrete entity. -/
theorem axiomTension_nesting_critical_witness :
    (analyzeAxiomTensions 3 0 [entityTensionW]).map
        (fun g => (g.severity, g.suggestedAction.type))
      = [(Severity.critical, ActionType.axiom_review)] :=
  (axiomTension_nesting_critical entityTensionW 3 0 rfl rfl rfl).1 (by decide)

/-- The priority ranking is injective: equal ranks mean equal priorities. -/
theorem priorityOrder_inj (p q : Priority) : priorityOrder p = priorityOrder q ↔ p = q := by
  cases p <;> cases q <;> decide

/-- `pendingLE` is total. -/
theorem pendingLE_total (a b : ReviewItem) : (pendingLE a b || pendingLE b a) = true := by
  simp [pendingLE]
  omega

/-- `pendingLE` is transitive. -/
theorem pendingLE_trans (a b c : ReviewItem) (h1 : pendingLE a b = true)
    (h2 : pendingLE b c = true) : pendingLE a c = true := by
  simp [pendingLE] at h1 h2 ⊢
  omega

/-- `pendingLE` unfolded to the order the specification states. -/
theorem pendingLE_iff (a b : ReviewItem) :
    pendingLE a b = true ↔
      priorityOrder a.priority < priorityOrder b.priority
        ∨ (a.priority = b.priority ∧ a.createdAt ≤ b.createdAt) := by
  rw [pendingLE]
  simp [priorityOrder_inj]

/-- Filtering the pending items after the lazy time-based expiry sweep keeps
exactly the originally-pending items whose deadline has not passed. -/
theorem filter_pending_expireOld (now : ℕ) (q : ReviewQueue) :
    (expireOldItems now q).items.filter (fun item => item.status == .pending)
      = q.items.filter
          (fun item => item.status == .pending && decide (now ≤ item.expiresAt)) := by
  cases q with
  | mk config items itemCounter =>
    simp only [expireOldItems]
    induction items with
    | nil => rfl
    | cons h t ih =>
      by_cases hp : h.status = .pending
      · by_cases he : h.expiresAt < now
        · have hnle : ¬ now ≤ h.expiresAt := by omega
          simp [hp, he, List.filter_cons, hnle]
          simpa using ih
        · have hle : now ≤ h.expiresAt := by omega
          simp [hp, he, List.filter_cons, hle]
          simpa using ih
      · have hb : (h.status == ReviewStatus.pending) = false := by
          cases hs : h.status <;> first | decide | exact absurd hs hp
        simp [List.filter_cons, hb, hp]
        simpa using ih

/-- C5: for every queue state and time, `listPending` returns exactly the
pending, non-expired items (as a permutation of that filter of the item
table), ordered by priority rank (critical, high, medium, low) and, within
equal priority, by ascending creation time. -/
theorem listPending_spec (q : ReviewQueue) (now : ℕ) :
    ((q.listPending now).1).Perm
        (q.items.filter
          (fun item => item.status == .pending && decide (now ≤ item.expiresAt)))
      ∧ ((q.listPending now).1).Pairwise
          (fun a b => priorityOrder a.priority < priorityOrder b.priority
            ∨ (a.priority = b.priority ∧ a.createdAt ≤ b.createdAt)) := by
  constructor
  · have h1 := List.mergeSort_perm
      ((expireOldItems now q).items.filter (fun item => item.status == .pending)) pendingLE
    rw [← filter_pending_expireOld now q]
    exact h1
  · have h2 := List.sorted_mergeSort pendingLE_trans pendingLE_total
      ((expireOldItems now q).items.filter (fun item => item.status == .pending))
    exact List.Pairwise.imp (fun hab => (pendingLE_iff _ _).mp hab) h2

/-! ### File-system map lemmas used by the integrator proofs -/

theorem find?_map_overwrite (files : List (String × String)) (p c : String)
    (h : files.any (fun f => f.1 == p) = true) :
    (files.map (fun f => if f.1 == p then (p, c) else f)).find? (fun f => f.1 == p)
      = some (p, c) := by
  induction files with
  | nil => simp at h
  | cons f t ih =>
    rw [List.map_cons]
    by_cases hf : f.1 = p
    · rw [if_pos (by simp [hf]), List.find?_cons_of_pos _ (by simp)]
    · have hb : (f.1 == p) = false := by simp [hf]
      have h' : t.any (fun f => f.1 == p) = true := by
        rw [List.any_cons, hb] at h
        simpa using h
      rw [if_neg (by simp [hf]), List.find?_cons_of_neg _ (by simp [hf])]
      exact ih h'

theorem find?_map_overwrite_ne (files : List (String × String)) (p q c : String)
    (hne : q ≠ p) :
    (files.map (fun f => if f.1 == p then (p, c) else f)).find? (fun f => f.1 == q)
      = files.find? (fun f => f.1 == q) := by
  induction files with
  | nil => rfl
  | cons f t ih =>
    rw [List.map_cons]
    by_cases hf : f.1 = p
    · rw [if_pos (by simp [hf]), List.find?_cons_of_neg _ (by simp [Ne.symm hne]),
        List.find?_cons_of_neg _ (by simp [hf, Ne.symm hne])]
      exact ih
    · rw [if_neg (by simp [hf])]
      by_cases hq : f.1 = q
      · rw [List.find?_cons_of_pos _ (by simp [hq]), List.find?_cons_of_pos _ (by simp [hq])]
      · rw [List.find?_cons_of_neg _ (by simp [hq]), List.find?_cons_of_neg _ (by simp [hq])]
        exact ih

theorem any_key_map_overwrite (files : List (String × String)) (p c q : String) :
    (files.map (fun f => if f.1 == p then (p, c) else f)).any (fun f => f.1 == q)
      = files.any (fun f => f.1 == q) := by
  induction files with
  | nil => rfl
  | cons f t ih =>
    rw [List.map_cons, List.any_cons, List.any_cons, ih]
    by_cases hf : f.1 = p
    · rw [if_pos (by simp [hf]), hf]
    · rw [if_neg (by simp [hf])]

theorem readFileSync_writeFileSync_self (fs : FS) (p c : String) :
    (fs.writeFileSync p c).readFileSync p = c := by
  cases fs with | mk files =>
  show (FS.writeFileSync ⟨files⟩ p c).readFileSync p = c
  rw [FS.writeFileSync]
  by_cases h : files.any (fun f => f.1 == p) = true
  · rw [if_pos h]
    show ((((files.map (fun f => if f.1 == p then (p, c) else f)).find?
      (fun f => f.1 == p)).map Prod.snd).getD "") = c
    rw [find?_map_overwrite files p c h]
    rfl
  · rw [if_neg h]
    show ((((files ++ [(p, c)]).find? (fun f => f.1 == p)).map Prod.snd).getD "") = c
    have hnone : files.find? (fun f => f.1 == p) = none := by
      rw [List.find?_eq_none]
      intro x hx hcon
      exact h (List.any_of_mem hx hcon)
    rw [List.find?_append, hnone]
    simp

theorem readFileSync_writeFileSync_ne (fs : FS) (p q c : String) (hne : q ≠ p) :
    (fs.writeFileSync p c).readFileSync q = fs.readFileSync q := by
  cases fs with | mk files =>
  show (FS.writeFileSync ⟨files⟩ p c).readFileSync q = FS.readFileSync ⟨files⟩ q
  rw [FS.writeFileSync]
  by_cases h : files.any (fun f => f.1 == p) = true
  · rw [if_pos h]
    show ((((files.map (fun f => if f.1 == p then (p, c) else f)).find?
      (fun f => f.1 == q)).map Prod.snd).getD "") = _
    rw [find?_map_overwrite_ne files p q c hne]
    rfl
  · rw [if_neg h]
    show ((((files ++ [(p, c)]).find? (fun f => f.1 == q)).map Prod.snd).getD "") = _
    rw [List.find?_append]
    have hone : List.find? (fun f => f.1 == q) [(p, c)] = none := by
      rw [List.find?_cons_of_neg _ (by simp [Ne.symm hne])]
      rfl
    rw [hone]
    cases hfq : files.find? (fun f => f.1 == q) <;> simp [FS.readFileSync, hfq]

theorem existsSync_writeFileSync (fs : FS) (p c q : String) :
    (fs.writeFileSync p c).existsSync q = (fs.existsSync q || p == q) := by
  cases fs with | mk files =>
  show (FS.writeFileSync ⟨files⟩ p c).existsSync q = (FS.existsSync ⟨files⟩ q || p == q)
  rw [FS.writeFileSync]
  by_cases h : files.any (fun f => f.1 == p) = true
  · rw [if_pos h]
    show (files.map (fun f => if f.1 == p then (p, c) else f)).any (fun f => f.1 == q) = _
    rw [any_key_map_overwrite]
    by_cases hq : p = q
    · subst hq
      show files.any (fun f => f.1 == p) = (files.any (fun f => f.1 == p) || (p == p))
      rw [h]
      rfl
    · have : (p == q) = false := by simp [hq]
      rw [this, Bool.or_false]
      rfl
  · rw [if_neg h]
    show (files ++ [(p, c)]).any (fun f => f.1 == q) = _
    rw [List.any_append]
    simp [FS.existsSync]

/-- Flipping the rollback flag of the first entry with the given id is
exactly what a later `find` observes. -/
theorem find?_markRolledBack (history : List IntegrationHistoryEntry) (iid : String)
    (entry : IntegrationHistoryEntry)
    (h : history.find? (fun e => e.id == iid) = some entry) :
    (markRolledBack history iid).find? (fun e => e.id == iid)
      = some { entry with canRollback := false } := by
  induction history with
  | nil => simp at h
  | cons e t ih =>
    by_cases he : e.id = iid
    · rw [List.find?_cons_of_pos _ (by simp [he])] at h
      cases h
      rw [markRolledBack, if_pos (by simp [he]), List.find?_cons_of_pos _ (by simp [he])]
    · rw [List.find?_cons_of_neg _ (by simp [he])] at h
      rw [markRolledBack, if_neg (by simp [he]), List.find?_cons_of_neg _ (by simp [he])]
      exact ih h

/-- A joined path is never the empty string (so it is truthy). -/
theorem optTruthy_pathJoin (a b : String) : optTruthy (some (pathJoin a b)) = true := by
  rw [optTruthy, pathJoin]
  have : (a ++ "/" ++ b).data = a.data ++ "/".data ++ b.data := by
    simp [String.data_append]
  have hne : (a ++ "/" ++ b) ≠ "" := by
    intro hcon
    have := congrArg String.data hcon
    rw [this] at *
    simp_all
  have hfalse : (a ++ "/" ++ b).isEmpty = false := by
    rw [Bool.eq_false_iff]
    intro hcon
    exact hne ((String.isEmpty_iff _).mp hcon)
  rw [hfalse]
  rfl


/-- On an existing target with backups enabled and dry-run off, `integrate`
takes a backup, rewrites the target per the insertion strategy, and appends
one rollbackable history record. -/
theorem integrate_existing_target (ig0 : Integrator) (fs0 : FS) (item : ReviewItem)
    (gc : GeneratedCode) (now : ℕ)
    (hcb : ig0.config.createBackups = true) (hdry : ig0.config.dryRun = false)
    (hgc : item.generatedCode = some gc)
    (hex : fs0.existsSync (pathJoin ig0.config.baseDir gc.targetFile) = true) :
    ig0.integrate fs0 now item
      = ({ success := true, itemId := item.id, generatedCodeId := gc.id
           targetFile := gc.targetFile, action := .modified
           backup := some (mkBackupPath ig0.config
             (pathJoin ig0.config.baseDir gc.targetFile) gc.id now)
           timestamp := now },
         { ig0 with history := ig0.history ++ [integrationEntryOf ig0 item gc now] },
         (fs0.copyFileSync (pathJoin ig0.config.baseDir gc.targetFile)
             (mkBackupPath ig0.config (pathJoin ig0.config.baseDir gc.targetFile)
               gc.id now)).writeFileSync
           (pathJoin ig0.config.baseDir gc.targetFile)
           (applyInsertion
             ((fs0.copyFileSync (pathJoin ig0.config.baseDir gc.targetFile)
                 (mkBackupPath ig0.config (pathJoin ig0.config.baseDir gc.targetFile)
                   gc.id now)).readFileSync (pathJoin ig0.config.baseDir gc.targetFile))
             gc.code gc.insertionPoint)) := by
  have hex1 : ((fs0.copyFileSync (pathJoin ig0.config.baseDir gc.targetFile)
      (mkBackupPath ig0.config (pathJoin ig0.config.baseDir gc.targetFile) gc.id now)).existsSync
      (pathJoin ig0.config.baseDir gc.targetFile)) = true := by
    rw [FS.copyFileSync, existsSync_writeFileSync, hex]
    rfl
  simp only [Integrator.integrate, hgc, hcb, hex, applyCode, hdry, hex1, integrationEntryOf,
    Bool.and_self, Bool.not_true, Bool.false_eq_true, if_false, if_true, Option.isSome_some]

/-- C7: rollback semantics.  (a) A rollbackable record: `rollback` restores
the backup content verbatim to the target location and flips the record's
rollback flag to false.  (b) A record with no backup, or one already rolled
back, fails with the explicit not-rollbackable error and restores nothing.
(c) Round trip: `integrate` into an existing target followed by `rollback`
of the new record leaves the target byte-identical to its pre-integration
content. -/
theorem rollback_spec :
    (∀ (ig : Integrator) (fs : FS) (iid : String) (entry : IntegrationHistoryEntry),
        ig.history.find? (fun h => h.id == iid) = some entry →
        ig.config.dryRun = false →
        entry.canRollback = true → optTruthy entry.backupPath = true →
        ig.rollback fs iid
            = (.ok true, { ig with history := markRolledBack ig.history iid },
               fs.copyFileSync (entry.backupPath.getD "")
                 (pathJoin ig.config.baseDir entry.targetFile))
          ∧ ((ig.rollback fs iid).2.2).readFileSync (pathJoin ig.config.baseDir entry.targetFile)
              = fs.readFileSync (entry.backupPath.getD "")
          ∧ ((ig.rollback fs iid).2.1).history.find? (fun h => h.id == iid)
              = some { entry with canRollback := false })
      ∧ (∀ (ig : Integrator) (fs : FS) (iid : String) (entry : IntegrationHistoryEntry),
          ig.history.find? (fun h => h.id == iid) = some entry →
          entry.canRollback = false ∨ optTruthy entry.backupPath = false →
          ∃ e, ig.rollback fs iid = (.error e, ig, fs))
      ∧ (∀ (ig0 : Integrator) (fs0 : FS) (item : ReviewItem) (gc : GeneratedCode) (now : ℕ)
          (r : IntegrationResult) (ig1 : Integrator) (fs2 : FS),
          ig0.config.createBackups = true → ig0.config.dryRun = false →
          item.generatedCode = some gc →
          fs0.existsSync (pathJoin ig0.config.baseDir gc.targetFile) = true →
          mkBackupPath ig0.config (pathJoin ig0.config.baseDir gc.targetFile) gc.id now
              ≠ pathJoin ig0.config.baseDir gc.targetFile →
          ig0.history.find? (fun h => h.id == ("int_" ++ toString now)) = none →
          ig0.integrate fs0 now item = (r, ig1, fs2) →
          (ig1.rollback fs2 ("int_" ++ toString now)).2.2.readFileSync
              (pathJoin ig0.config.baseDir gc.targetFile)
            = fs0.readFileSync (pathJoin ig0.config.baseDir gc.targetFile)) := by
  have hA : ∀ (ig : Integrator) (fs : FS) (iid : String) (entry : IntegrationHistoryEntry),
      ig.history.find? (fun h => h.id == iid) = some entry →
      ig.config.dryRun = false →
      entry.canRollback = true → optTruthy entry.backupPath = true →
      ig.rollback fs iid
          = (.ok true, { ig with history := markRolledBack ig.history iid },
             fs.copyFileSync (entry.backupPath.getD "")
               (pathJoin ig.config.baseDir entry.targetFile))
        ∧ ((ig.rollback fs iid).2.2).readFileSync (pathJoin ig.config.baseDir entry.targetFile)
            = fs.readFileSync (entry.backupPath.getD "")
        ∧ ((ig.rollback fs iid).2.1).history.find? (fun h => h.id == iid)
            = some { entry with canRollback := false } := by
    intro ig fs iid entry hfind hdry hcr htr
    have h1 : ig.rollback fs iid
        = (.ok true, { ig with history := markRolledBack ig.history iid },
           fs.copyFileSync (entry.backupPath.getD "")
             (pathJoin ig.config.baseDir entry.targetFile)) := by
      simp only [Integrator.rollback, hfind, hcr, htr, hdry,
        Bool.not_true, Bool.or_self, Bool.false_eq_true, if_false]
    refine ⟨h1, ?_, ?_⟩
    · rw [h1, FS.copyFileSync]
      exact readFileSync_writeFileSync_self _ _ _
    · rw [h1]
      exact find?_markRolledBack ig.history iid entry hfind
  refine ⟨hA, ?_, ?_⟩
  · intro ig fs iid entry hfind hbad
    refine ⟨"Integration " ++ iid ++ " cannot be rolled back", ?_⟩
    have hcond : (!entry.canRollback || !optTruthy entry.backupPath) = true := by
      rcases hbad with h | h <;> simp [h]
    simp only [Integrator.rollback, hfind, hcond, if_true]
  · intro ig0 fs0 item gc now r ig1 fs2 hcb hdry hgc hex hbne hfresh hEq
    rw [integrate_existing_target ig0 fs0 item gc now hcb hdry hgc hex] at hEq
    injection hEq with hr hrest
    injection hrest with hig hfs
    have hfind1 : ig1.history.find? (fun h => h.id == ("int_" ++ toString now))
        = some (integrationEntryOf ig0 item gc now) := by
      rw [← hig]
      show (ig0.history ++ [integrationEntryOf ig0 item gc now]).find? _ = _
      rw [List.find?_append, hfresh]
      simp [integrationEntryOf]
    have hdry1 : ig1.config.dryRun = false := by
      rw [← hig]
      exact hdry
    have hbase : ig1.config.baseDir = ig0.config.baseDir := by
      rw [← hig]
    have htr : optTruthy (integrationEntryOf ig0 item gc now).backupPath = true :=
      optTruthy_pathJoin _ _
    have hread := (hA ig1 fs2 ("int_" ++ toString now) (integrationEntryOf ig0 item gc now)
      hfind1 hdry1 rfl htr).2.1
    simp only [integrationEntryOf, Option.getD_some] at hread
    rw [hbase] at hread
    rw [hread, ← hfs, readFileSync_writeFileSync_ne _ _ _ _ hbne, FS.copyFileSync,
      readFileSync_writeFileSync_self]

/-- C7 witness: on the concrete integrator, rolling back `int_5` restores the
backup bytes to the target, rolling back the already-rolled-back `int_6`
fails and changes nothing, and a concrete integrate-then-rollback round trip
leaves the target byte-identical. -/
theorem rollback_spec_witness :
    (((igW.rollback fsW "int_5").2.2).readFileSync
        (pathJoin igW.config.baseDir entryW.targetFile)
      = fsW.readFileSync (entryW.backupPath.getD ""))
      ∧ (∃ e, igW.rollback fsW "int_6" = (.error e, igW, fsW))
      ∧ ((((igW.integrate fsW 7 itemApprovedCodeW).2.1).rollback
            ((igW.integrate fsW 7 itemApprovedCodeW).2.2) ("int_" ++ toString 7)).2.2.readFileSync
          (pathJoin igW.config.baseDir gcW.targetFile)
        = fsW.readFileSync (pathJoin igW.config.baseDir gcW.targetFile)) :=
  ⟨(rollback_spec.1 igW fsW "int_5" entryW rfl rfl rfl rfl).2.1,
   rollback_spec.2.1 igW fsW "int_6" entryRolledW rfl (Or.inl rfl),
   rollback_spec.2.2 igW fsW itemApprovedCodeW gcW 7 _ _ _ rfl rfl rfl (by decide) (by decide)
     (by decide) rfl⟩

/-- Splitting a Boolean count over a second predicate. -/
theorem countP_and_split {α : Type} (p q : α → Bool) (l : List α) :
    l.countP (fun x => p x && q x) + l.countP (fun x => !p x && q x) = l.countP q := by
  induction l with
  | nil => rfl
  | cons h t ih =>
    by_cases hp : p h = true <;> by_cases hq : q h = true <;>
      simp [List.countP_cons, hp, hq] <;> omega

/-- On a duplicate-free list, counting membership in a duplicate-free
contained list counts its length. -/
theorem countP_mem_nodup {β : Type} [DecidableEq β] (M : List β) (ids : List β)
    (hM : M.Nodup) (hids : ids.Nodup) (hsub : ∀ b ∈ ids, b ∈ M) :
    M.countP (fun b => decide (b ∈ ids)) = ids.length := by
  induction M generalizing ids with
  | nil =>
    cases ids with
    | nil => rfl
    | cons i t => exact absurd (hsub i (by simp)) (by simp)
  | cons c M' ih =>
    rw [List.countP_cons]
    by_cases hc : c ∈ ids
    · have hcount : M'.countP (fun b => decide (b ∈ ids))
          = M'.countP (fun b => decide (b ∈ ids.erase c)) := by
        apply List.countP_congr
        intro x hx
        have hxc : x ≠ c := by
          intro hcon
          rw [hcon] at hx
          exact (List.nodup_cons.mp hM).1 hx
        simp [List.mem_erase_of_ne hxc]
      have hsub' : ∀ b ∈ ids.erase c, b ∈ M' := by
        intro b hb
        have hbne : b ≠ c := (List.Nodup.mem_erase_iff hids).mp hb |>.1
        have hbM := hsub b (List.mem_of_mem_erase hb)
        rcases List.mem_cons.mp hbM with h | h
        · exact absurd h hbne
        · exact h
      rw [hcount, ih (ids.erase c) (List.nodup_cons.mp hM).2 (hids.erase c) hsub']
      have hid : decide (c ∈ ids) = true := by simpa using hc
      rw [hid, List.length_erase_of_mem hc]
      have hpos : 0 < ids.length := List.length_pos.mpr (by rintro rfl; simp at hc)
      simp
      omega
    · have hid : decide (c ∈ ids) = false := by simpa using hc
      rw [hid]
      have hsub' : ∀ b ∈ ids, b ∈ M' := by
        intro b hb
        rcases List.mem_cons.mp (hsub b hb) with h | h
        · exact absurd (h ▸ hb) hc
        · exact h
      rw [ih ids (List.nodup_cons.mp hM).2 hids hsub']
      simp

/-- Core of the capacity sweep: expiring, by id, a duplicate-free batch of
pending low-priority items drops the pending count by exactly the batch
size, touches only the batch, and keeps everything else unchanged. -/
theorem expireMark_core (now : ℕ) (L T : List ReviewItem)
    (hNod : (L.map (fun it => it.id)).Nodup)
    (hTsub : ∀ t ∈ T, t ∈ L)
    (hTpend : ∀ t ∈ T, t.status = .pending ∧ t.priority = .low)
    (hTnod : (T.map (fun it => it.id)).Nodup) :
    ((L.map (fun item => if (T.map (fun it => it.id)).contains item.id then
          { item with status := ReviewStatus.expired, updatedAt := now } else item)).filter
        (fun it => it.status == .pending)).length
      = (L.filter (fun it => it.status == .pending)).length - T.length
    ∧ (∀ it ∈ L, it ∉ (L.map (fun item => if (T.map (fun it => it.id)).contains item.id then
          { item with status := ReviewStatus.expired, updatedAt := now } else item)) →
        it.status = .pending ∧ it.priority = .low ∧ it ∈ T)
    ∧ (∀ v ∈ (L.map (fun item => if (T.map (fun it => it.id)).contains item.id then
          { item with status := ReviewStatus.expired, updatedAt := now } else item)),
        v.status = .pending →
        v ∈ L ∧ (T.map (fun it => it.id)).contains v.id = false) := by
  set ids := T.map (fun it => it.id) with hids
  set mark := fun item : ReviewItem => if ids.contains item.id then
    { item with status := ReviewStatus.expired, updatedAt := now } else item with hmark
  have hchar : ∀ it ∈ L, ids.contains it.id = true → it ∈ T := by
    intro it hit hc
    have hmem : it.id ∈ ids := by simpa using hc
    rw [hids] at hmem
    obtain ⟨t, htT, htid⟩ := List.mem_map.mp hmem
    have heq : it = t := List.inj_on_of_nodup_map hNod hit (hTsub t htT) htid.symm
    rw [heq]
    exact htT
  refine ⟨?_, ?_, ?_⟩
  · have hcount1 : ((L.map mark).filter (fun it => it.status == .pending)).length
        = L.countP (fun it => !(ids.contains it.id) && it.status == .pending) := by
      rw [← List.countP_eq_length_filter, List.countP_map]
      apply List.countP_congr
      intro it _
      cases hc : ids.contains it.id
      · have hm : it.id ∉ ids := by simpa using hc
        simp [hmark, hm]
      · have hm : it.id ∈ ids := by simpa using hc
        simp [hmark, hm]
    have hsplit := countP_and_split (fun it => ids.contains it.id)
      (fun it => it.status == .pending) L
    have hcount2 : L.countP (fun it => (ids.contains it.id) && it.status == .pending)
        = L.countP (fun it => ids.contains it.id) := by
      apply List.countP_congr
      intro it hit
      cases hc : ids.contains it.id
      · simp
      · simp [(hTpend it (hchar it hit hc)).1]
    have hcount3 : L.countP (fun it => ids.contains it.id) = ids.length := by
      have hmapped : L.countP (fun it => ids.contains it.id)
          = (L.map (fun it => it.id)).countP (fun b => decide (b ∈ ids)) := by
        rw [List.countP_map]
        apply List.countP_congr
        intro it _
        by_cases hb : it.id ∈ ids <;> simp [hb]
      rw [hmapped]
      apply countP_mem_nodup _ _ hNod hTnod
      intro b hb
      rw [hids] at hb
      obtain ⟨t, htT, rfl⟩ := List.mem_map.mp hb
      exact List.mem_map.mpr ⟨t, hTsub t htT, rfl⟩
    have hlenT : ids.length = T.length := by
      rw [hids, List.length_map]
    rw [hcount1, ← List.countP_eq_length_filter]
    rw [hcount2, hcount3, hlenT] at hsplit
    omega
  · intro it hit hnot
    by_cases hc : ids.contains it.id = true
    · have hT := hchar it hit hc
      exact ⟨(hTpend it hT).1, (hTpend it hT).2, hT⟩
    · exfalso
      apply hnot
      have hfix : mark it = it := by
        simp only [hmark]
        rw [if_neg hc]
      exact List.mem_map.mpr ⟨it, hit, hfix⟩
  · intro v hv hpend
    obtain ⟨w, hw, hmw⟩ := List.mem_map.mp hv
    by_cases hc : ids.contains w.id = true
    · exfalso
      subst hmw
      simp only [hmark] at hpend
      rw [if_pos hc] at hpend
      simp at hpend
    · have hfix : mark w = w := by
        simp only [hmark]
        rw [if_neg hc]
      rw [hfix] at hmw
      subst hmw
      refine ⟨hw, ?_⟩
      cases hcv : ids.contains w.id
      · rfl
      · exact absurd hcv hc

/-- `createdLE` is total. -/
theorem createdLE_total (a b : ReviewItem) : (createdLE a b || createdLE b a) = true := by
  simp [createdLE]
  omega

/-- `createdLE` is transitive. -/
theorem createdLE_trans (a b c : ReviewItem) (h1 : createdLE a b = true)
    (h2 : createdLE b c = true) : createdLE a c = true := by
  simp [createdLE] at h1 h2 ⊢
  omega

/-- Over capacity, `enforceMaxPending` marks expired exactly the items whose
ids are among the first `pending − max` of the creation-sorted low-priority
pending items. -/
theorem enforceMaxPending_eq (q : ReviewQueue) (now : ℕ)
    (hover : ((expireOldItems now q).items.filter
        (fun it => it.status == .pending)).length > q.config.maxPending) :
    enforceMaxPending now q
      = { expireOldItems now q with
          items := (expireOldItems now q).items.map
            (markFun now (expireOldItems now q).items q.config.maxPending) } := by
  have hlen : ((q.listPending now).1).length
      = ((expireOldItems now q).items.filter (fun it => it.status == .pending)).length :=
    (List.mergeSort_perm _ pendingLE).length_eq
  simp only [enforceMaxPending]
  rw [if_pos (by rw [hlen]; exact hover)]
  rfl

/-- Over-capacity behaviour of the marking pass of `enforceMaxPending`:
exactly `maxP` pending items survive, every dropped item was a low-priority
pending one, and the drops are oldest-first among the low-priority pending
items. -/
theorem enforce_body_spec (now : ℕ) (L : List ReviewItem) (maxP : ℕ)
    (hNod : (L.map (fun it => it.id)).Nodup)
    (hover : (L.filter (fun it => it.status == .pending)).length > maxP)
    (henough : (L.filter (fun it => it.status == .pending)).length - maxP
      ≤ ((L.filter (fun it => it.status == .pending)).filter
          (fun it => it.priority == .low)).length) :
    ((L.map (markFun now L maxP)).filter (fun it => it.status == .pending)).length = maxP
    ∧ (∀ it ∈ L, it ∉ L.map (markFun now L maxP) →
        it.status = .pending ∧ it.priority = .low)
    ∧ (∀ u ∈ L, u ∉ L.map (markFun now L maxP) →
        ∀ v ∈ L.map (markFun now L maxP), v.status = .pending → v.priority = .low →
          u.createdAt ≤ v.createdAt) := by
  have hpermS := List.mergeSort_perm (L.filter (fun it => it.status == .pending)) pendingLE
  have hpermLow := List.mergeSort_perm
    (((L.filter (fun it => it.status == .pending)).mergeSort pendingLE).filter
      (fun i => i.priority == .low)) createdLE
  have hTsub : ∀ t ∈ sweepBatch L maxP, t ∈ L := by
    intro t ht
    simp only [sweepBatch] at ht
    have h1 := (List.take_sublist _ _).subset ht
    have h2 := hpermLow.mem_iff.mp h1
    have h3 := (List.mem_filter.mp h2).1
    have h4 := hpermS.mem_iff.mp h3
    exact (List.mem_filter.mp h4).1
  have hTpl : ∀ t ∈ sweepBatch L maxP, t.status = .pending ∧ t.priority = .low := by
    intro t ht
    simp only [sweepBatch] at ht
    have h1 := (List.take_sublist _ _).subset ht
    have h2 := hpermLow.mem_iff.mp h1
    have h3 := (List.mem_filter.mp h2).1
    have h4 := hpermS.mem_iff.mp h3
    exact ⟨by simpa using (List.mem_filter.mp h4).2, by simpa using (List.mem_filter.mp h2).2⟩
  have hsubf : List.Sublist (L.filter (fun it => it.status == .pending)) L :=
    List.filter_sublist ..
  have hnd1 : ((L.filter (fun it => it.status == .pending)).map (fun it => it.id)).Nodup :=
    List.Nodup.sublist (hsubf.map (fun it => it.id)) hNod
  have hnd2 : (((L.filter (fun it => it.status == .pending)).mergeSort pendingLE).map
      (fun it => it.id)).Nodup := ((hpermS.map (fun it => it.id)).nodup_iff).mpr hnd1
  have hsubl : List.Sublist
      (((L.filter (fun it => it.status == .pending)).mergeSort pendingLE).filter
        (fun i => i.priority == .low))
      ((L.filter (fun it => it.status == .pending)).mergeSort pendingLE) :=
    List.filter_sublist ..
  have hnd3 : ((((L.filter (fun it => it.status == .pending)).mergeSort pendingLE).filter
      (fun i => i.priority == .low)).map (fun it => it.id)).Nodup :=
    List.Nodup.sublist (hsubl.map (fun it => it.id)) hnd2
  have hnd4 : (((((L.filter (fun it => it.status == .pending)).mergeSort pendingLE).filter
      (fun i => i.priority == .low)).mergeSort createdLE).map (fun it => it.id)).Nodup :=
    ((hpermLow.map (fun it => it.id)).nodup_iff).mpr hnd3
  have hsubt : List.Sublist (sweepBatch L maxP)
      ((((L.filter (fun it => it.status == .pending)).mergeSort pendingLE).filter
        (fun i => i.priority == .low)).mergeSort createdLE) := List.take_sublist _ _
  have hTnod : ((sweepBatch L maxP).map (fun it => it.id)).Nodup :=
    List.Nodup.sublist (hsubt.map (fun it => it.id)) hnd4
  have hcore := expireMark_core now L (sweepBatch L maxP) hNod hTsub hTpl hTnod
  have hl1 : ((L.filter (fun it => it.status == .pending)).mergeSort pendingLE).length
      = (L.filter (fun it => it.status == .pending)).length := hpermS.length_eq
  have hl2 := hpermLow.length_eq
  have hl3 : ((((L.filter (fun it => it.status == .pending)).mergeSort pendingLE).filter
      (fun i => i.priority == .low))).length
      = (((L.filter (fun it => it.status == .pending)).filter
        (fun i => i.priority == .low))).length :=
    (hpermS.filter (fun i => i.priority == .low)).length_eq
  have hTlen : (sweepBatch L maxP).length
      = (L.filter (fun it => it.status == .pending)).length - maxP := by
    simp only [sweepBatch, List.length_take]
    omega
  refine ⟨?_, ?_, ?_⟩
  · exact hcore.1.trans (by rw [hTlen]; omega)
  · intro it hit hnot
    exact ⟨(hcore.2.1 it hit hnot).1, (hcore.2.1 it hit hnot).2.1⟩
  · intro u hu hunot v hv hvp hvl
    have hu3 := hcore.2.1 u hu hunot
    have hv2 := hcore.2.2 v hv hvp
    have hvP : v ∈ L.filter (fun it => it.status == .pending) :=
      List.mem_filter.mpr ⟨hv2.1, by simp [hvp]⟩
    have hvS : v ∈ (L.filter (fun it => it.status == .pending)).mergeSort pendingLE :=
      hpermS.mem_iff.mpr hvP
    have hvlows : v ∈ ((L.filter (fun it => it.status == .pending)).mergeSort pendingLE).filter
        (fun i => i.priority == .low) := List.mem_filter.mpr ⟨hvS, by simp [hvl]⟩
    have hvls : v ∈ (((L.filter (fun it => it.status == .pending)).mergeSort pendingLE).filter
        (fun i => i.priority == .low)).mergeSort createdLE := hpermLow.mem_iff.mpr hvlows
    have hvnotT : v ∉ sweepBatch L maxP := by
      intro hvT
      have hmem : v.id ∈ (sweepBatch L maxP).map (fun it => it.id) :=
        List.mem_map.mpr ⟨v, hvT, rfl⟩
      have hnm : v.id ∉ (sweepBatch L maxP).map (fun it => it.id) := by simpa using hv2.2
      exact hnm hmem
    have hsorted := List.sorted_mergeSort createdLE_trans createdLE_total
      (((L.filter (fun it => it.status == .pending)).mergeSort pendingLE).filter
        (fun i => i.priority == .low))
    have hsplit := List.take_append_drop
      (((L.filter (fun it => it.status == .pending)).mergeSort pendingLE).length - maxP)
      ((((L.filter (fun it => it.status == .pending)).mergeSort pendingLE).filter
        (fun i => i.priority == .low)).mergeSort createdLE)
    rw [← hsplit] at hsorted
    have hpair := (List.pairwise_append.mp hsorted).2.2
    have hvdrop : v ∈ (((((L.filter (fun it => it.status == .pending)).mergeSort
        pendingLE).filter (fun i => i.priority == .low)).mergeSort createdLE).drop
        (((L.filter (fun it => it.status == .pending)).mergeSort pendingLE).length - maxP)) := by
      have hm2 : v ∈ (((((L.filter (fun it => it.status == .pending)).mergeSort
          pendingLE).filter (fun i => i.priority == .low)).mergeSort createdLE).take
          (((L.filter (fun it => it.status == .pending)).mergeSort pendingLE).length - maxP))
          ++ (((((L.filter (fun it => it.status == .pending)).mergeSort
          pendingLE).filter (fun i => i.priority == .low)).mergeSort createdLE).drop
          (((L.filter (fun it => it.status == .pending)).mergeSort pendingLE).length
            - maxP)) := by
        rw [hsplit]
        exact hvls
      rcases List.mem_append.mp hm2 with h | h
      · exact absurd h hvnotT
      · exact h
    have hrel := hpair u hu3.2.2 v hvdrop
    simpa [createdLE] using hrel

/-- C6 (amended): `enforceMaxPending` enforces the pending cap by expiring
exactly the oldest low-priority pending items: when, after lazy expiry, the
pending count exceeds `maxPending` and enough low-priority pending items
exist, (a) exactly `maxPending` pending items survive, (b) every item dropped
from the table's surviving set was a low-priority pending item, (c) every
dropped item is no younger than any surviving low-priority pending item, and
(d) the `addGapReview` entry path runs this policy on the updated queue (as
does `addCodeReview` — but `addAxiomReview` does not, see the
counterexample). -/
theorem enforceMaxPending_spec (q : ReviewQueue) (now : ℕ) (gap : Gap)
    (hNod : ((expireOldItems now q).items.map (fun it => it.id)).Nodup)
    (hover : ((expireOldItems now q).items.filter
        (fun it => it.status == .pending)).length > q.config.maxPending)
    (henough : ((expireOldItems now q).items.filter
          (fun it => it.status == .pending)).length - q.config.maxPending
      ≤ (((expireOldItems now q).items.filter (fun it => it.status == .pending)).filter
          (fun it => it.priority == .low)).length) :
    ((enforceMaxPending now q).items.filter (fun it => it.status == .pending)).length
        = q.config.maxPending
    ∧ (∀ it ∈ (expireOldItems now q).items, it ∉ (enforceMaxPending now q).items →
        it.status = .pending ∧ it.priority = .low)
    ∧ (∀ u ∈ (expireOldItems now q).items, u ∉ (enforceMaxPending now q).items →
        ∀ v ∈ (enforceMaxPending now q).items, v.status = .pending → v.priority = .low →
          u.createdAt ≤ v.createdAt)
    ∧ (q.addGapReview now gap).2
        = enforceMaxPending now
            { q with items := mapSet q.items (q.addGapReview now gap).1,
                     itemCounter := q.itemCounter + 1 } := by
  have hbody := enforce_body_spec now (expireOldItems now q).items q.config.maxPending
    hNod hover henough
  rw [enforceMaxPending_eq q now hover]
  exact ⟨hbody.1, hbody.2.1, hbody.2.2, rfl⟩

/-- C6 counterexample: `addAxiomReview` is an entry path that does NOT run
the capacity policy: on a queue with `maxPending = 1` already holding one
pending item, adding an axiom review leaves two pending items in the queue
(and none of them was expired). -/
theorem addAxiomReview_capacity_counterexample :
    queueCapW.config.maxPending = 1
    ∧ ((queueCapW.addAxiomReview 10 gapCritW).2.items.filter
        (fun it => it.status == .pending)).length = 2
    ∧ (queueCapW.addAxiomReview 10 gapCritW).2.items.all
        (fun it => it.status == .pending) = true := by
  exact ⟨rfl, rfl, rfl⟩

/-- Witness for the amended C6 theorem at a concrete over-capacity queue. -/
theorem enforceMaxPending_spec_witness :
    ((enforceMaxPending 10 queueCap2W).items.filter
        (fun it => it.status == .pending)).length = queueCap2W.config.maxPending := by
  have h := enforceMaxPending_spec queueCap2W 10 gapW (by decide) (by decide) (by decide)
  exact h.1
